import Mathlib

/-!
# Battlefield Shooter (Tank Edition): the game update loop of `game.cpp`

A shallow embedding of the game state and of the functions of `src/game.cpp`
that change it (`randFloat`, `spawnBullet`, `resetTargets`, `restartGame`,
`timerCallback`, `initGame`, `updateGame`, `handleKeyboard`, `handleSpecial`),
followed by theorems about them.

Modelling conventions.

* The globals of `game.cpp` (`player`, `reflectScene`, `shearEffect`, `score`,
  `timeLeft`, `gameOver`, `bullets`, `targets`) and the hidden state of
  `std::rand` are the fields of one record `Game`, passed explicitly.
* `float` is an arbitrary linearly ordered field `K` with exact arithmetic
  (`ℚ` for evaluation, `ℝ` with the real sine and cosine for the trigonometric
  identities). Rounding, infinities and NaN are outside the model.
* `std::sin`, `std::cos`, `M_PI` and `RAND_MAX` come from the C library, not
  from the repository; they are the fields of the parameter `Env`.
* `int` is `Int` without wrap-around: `timeLeft` only moves between 0 and 60,
  and `score` grows by at most 5 per tick from 0.
* The arrays `bullets[MAX_BULLETS]` and `targets[NUM_TARGETS]` are functions
  on `Fin MAX_BULLETS` and `Fin NUM_TARGETS`; a `for` loop over the indices is
  a fold or a recursion over `List.finRange`, a `break` ends the recursion.
* `exit(0)` is the result `none` of `handleKeyboard`. The OpenGL and GLUT
  calls (drawing, redisplay and timer registration) do not touch the game
  state and are left out.
-/

namespace TankGame

/-! ## Data model -/

/-- C library numerics used by `game.cpp`: `M_PI`, `std::sin`, `std::cos`, `RAND_MAX`. -/
structure Env (K : Type) where
  M_PI : K
  sin : K → K
  cos : K → K
  RAND_MAX : Nat

/-- The `Car` struct of `game.h`. -/
structure Car (K : Type) where
  x : K
  y : K
  angle : K
  speed : K

/-- The `Bullet` struct of `game.cpp`. -/
structure Bullet (K : Type) where
  x : K
  y : K
  vx : K
  vy : K
  active : Bool

/-- The `Target` struct of `game.cpp`. -/
structure Target (K : Type) where
  x : K
  y : K
  radius : K
  active : Bool

abbrev MAX_BULLETS : Nat := 20
abbrev NUM_TARGETS : Nat := 5

def TRACK_X_MIN : Int := 120
def TRACK_Y_MIN : Int := 120
def TRACK_X_MAX : Int := TRACK_X_MIN + 560
def TRACK_Y_MAX : Int := TRACK_Y_MIN + 360
def CURB_OFFSET : Int := 20
def INNER_X_MIN : Int := TRACK_X_MIN + CURB_OFFSET
def INNER_Y_MIN : Int := TRACK_Y_MIN + CURB_OFFSET
def INNER_X_MAX : Int := TRACK_X_MAX - CURB_OFFSET
def INNER_Y_MAX : Int := TRACK_Y_MAX - CURB_OFFSET

/-- GLUT key codes of the arrow keys (`GL/glut.h`). -/
def GLUT_KEY_LEFT : Int := 100
def GLUT_KEY_RIGHT : Int := 102

/-- The global state of `game.cpp`, with the state of `std::rand` as the stream
`randState` of the outputs still to come. -/
structure Game (K : Type) where
  player : Car K
  reflectScene : Bool
  shearEffect : Bool
  score : Int
  timeLeft : Int
  gameOver : Bool
  bullets : Fin MAX_BULLETS → Bullet K
  targets : Fin NUM_TARGETS → Target K
  randState : Nat → Nat

section Code

variable {K : Type} [LinearOrderedField K]

/-! ## Helpers -/

/-- One call of `std::rand()`: the next output and the advanced generator. -/
def rand (g : Game K) : Nat × Game K :=
  (g.randState 0, { g with randState := fun n => g.randState (n + 1) })

/-- The arithmetic of `randFloat(a, b)` on the output `r` of `std::rand()`. -/
def randFloat (E : Env K) (a b : K) (r : Nat) : K :=
  a + (b - a) * ((r : K) / (E.RAND_MAX : K))

/-- The loop `for (i = 0; i < n; ++i) arr[i] = f(arr[i]);`. -/
def forEach {n : Nat} {α : Type} (f : α → α) (arr : Fin n → α) : Fin n → α :=
  (List.finRange n).foldl (fun a i => Function.update a i (f (a i))) arr

/-! ## spawnBullet -/

/-- The slot search of `spawnBullet`: the first index of the list whose bullet is inactive. -/
def firstInactive (bs : Fin MAX_BULLETS → Bullet K) :
    List (Fin MAX_BULLETS) → Option (Fin MAX_BULLETS)
  | [] => none
  | i :: rest => if !(bs i).active then some i else firstInactive bs rest

def spawnBullet (E : Env K) (g : Game K) : Game K :=
  if g.gameOver then g
  else
    match firstInactive g.bullets (List.finRange MAX_BULLETS) with
    | none => g
    | some index =>
      let rad := g.player.angle * E.M_PI / 180
      let dirX := E.sin rad
      let dirY := -E.cos rad
      let spawnDist : K := 40
      let bulletSpeed : K := 8
      { g with
        bullets := Function.update g.bullets index
          { x := g.player.x + dirX * spawnDist
            y := g.player.y + dirY * spawnDist
            vx := dirX * bulletSpeed
            vy := dirY * bulletSpeed
            active := true } }

/-! ## resetTargets, restartGame, timerCallback, initGame -/

/-- One iteration of the loop of `resetTargets`. -/
def resetTargetsBody (E : Env K) (minX maxX minY maxY : K) (g : Game K)
    (i : Fin NUM_TARGETS) : Game K :=
  let rx := rand g
  let x := randFloat E minX maxX rx.1
  let ry := rand rx.2
  let y := randFloat E minY maxY ry.1
  { ry.2 with
    targets := Function.update ry.2.targets i { x := x, y := y, radius := 15, active := true } }

def resetTargets (E : Env K) (g : Game K) : Game K :=
  let margin : K := 40
  let minX : K := (INNER_X_MIN : K) + margin
  let maxX : K := (INNER_X_MAX : K) - margin
  let minY : K := (INNER_Y_MIN : K) + margin
  let maxY : K := (INNER_Y_MAX : K) - margin
  (List.finRange NUM_TARGETS).foldl (resetTargetsBody E minX maxX minY maxY) g

def restartGame (E : Env K) (g : Game K) : Game K :=
  let centerX : K := ((INNER_X_MIN + INNER_X_MAX : Int) : K) / 2
  let g1 : Game K :=
    { g with player := { x := centerX, y := (INNER_Y_MIN : K) + 50, angle := 0, speed := 0 } }
  let g2 : Game K :=
    { g1 with bullets := forEach (fun b => { b with active := false }) g1.bullets }
  let g3 := resetTargets E g2
  { g3 with score := 0, timeLeft := 60, gameOver := false }

/-- The state update of the 1 Hz `timerCallback` of `game.cpp`. -/
def timerCallback (g : Game K) : Game K :=
  if !g.gameOver && decide (g.timeLeft > 0) then
    let g1 : Game K := { g with timeLeft := g.timeLeft - 1 }
    if g1.timeLeft ≤ 0 then { g1 with timeLeft := 0, gameOver := true } else g1
  else g

/-- The globals of `game.cpp` as static initialisation leaves them, before `initGame`. -/
def staticInit : Game K :=
  { player := { x := 0, y := 0, angle := 0, speed := 0 }
    reflectScene := false
    shearEffect := false
    score := 0
    timeLeft := 60
    gameOver := false
    bullets := fun _ => { x := 0, y := 0, vx := 0, vy := 0, active := false }
    targets := fun _ => { x := 0, y := 0, radius := 0, active := false }
    randState := fun _ => 0 }

/-- The state that `initGame` establishes; `seeded` is the output stream that
`std::srand(time(nullptr))` selects. -/
def initGame (E : Env K) (seeded : Nat → Nat) : Game K :=
  let g0 : Game K := { (staticInit : Game K) with randState := seeded }
  let centerX : K := ((INNER_X_MIN + INNER_X_MAX : Int) : K) / 2
  let g1 : Game K :=
    { g0 with player := { x := centerX, y := (INNER_Y_MIN : K) + 50, angle := 180, speed := 0 } }
  let g2 : Game K :=
    { g1 with bullets := forEach (fun b => { b with active := false }) g1.bullets }
  let g3 := resetTargets E g2
  { g3 with score := 0, timeLeft := 60, gameOver := false }

/-! ## updateGame -/

/-- The "Tank movement" and "Clamp speed" blocks of `updateGame`. -/
def movePlayer (E : Env K) (p : Car K) : Car K :=
  let rad := p.angle * E.M_PI / 180
  let p1 : Car K := { p with x := p.x + p.speed * E.sin rad }
  let p2 : Car K := { p1 with y := p1.y + -p1.speed * E.cos rad }
  let p3 : Car K := if p2.x < (INNER_X_MIN : K) then { p2 with x := (INNER_X_MIN : K) } else p2
  let p4 : Car K := if p3.x > (INNER_X_MAX : K) then { p3 with x := (INNER_X_MAX : K) } else p3
  let p5 : Car K := if p4.y < (INNER_Y_MIN : K) then { p4 with y := (INNER_Y_MIN : K) } else p4
  let p6 : Car K := if p5.y > (INNER_Y_MAX : K) then { p5 with y := (INNER_Y_MAX : K) } else p5
  let p7 : Car K := if p6.speed > 5 then { p6 with speed := 5 } else p6
  if p7.speed < -2 then { p7 with speed := -2 } else p7

/-- The body of the "Bullets movement" loop of `updateGame`. -/
def moveBullet (b : Bullet K) : Bullet K :=
  if !b.active then b
  else
    let b1 : Bullet K := { b with x := b.x + b.vx }
    let b2 : Bullet K := { b1 with y := b1.y + b1.vy }
    if b2.x < (INNER_X_MIN : K) ∨ b2.x > (INNER_X_MAX : K) ∨
        b2.y < (INNER_Y_MIN : K) ∨ b2.y > (INNER_Y_MAX : K) then
      { b2 with active := false }
    else b2

/-- The hit test of `updateGame`: `distSq <= hitRadius * hitRadius`. -/
def hitTest (b : Bullet K) (t : Target K) : Bool :=
  let dx := b.x - t.x
  let dy := b.y - t.y
  let distSq := dx * dx + dy * dy
  let hitRadius := t.radius + 4
  decide (distSq ≤ hitRadius * hitRadius)

/-- The three assignments of the "Hit!" branch: target `t` and bullet `b` are
deactivated and the score goes up by one. -/
def applyHit (g : Game K) (t : Fin NUM_TARGETS) (b : Fin MAX_BULLETS) : Game K :=
  { g with
    targets := Function.update g.targets t { g.targets t with active := false }
    bullets := Function.update g.bullets b { g.bullets b with active := false }
    score := g.score + 1 }

/-- The inner loop of the collision block for target `t`, over the bullet indices
still to visit; a hit updates the state and breaks. -/
def collideBullets (t : Fin NUM_TARGETS) (g : Game K) : List (Fin MAX_BULLETS) → Game K
  | [] => g
  | b :: rest =>
    if !(g.bullets b).active then collideBullets t g rest
    else if hitTest (g.bullets b) (g.targets t) then applyHit g t b
    else collideBullets t g rest

/-- One iteration of the outer loop of the collision block. -/
def collideTarget (g : Game K) (t : Fin NUM_TARGETS) : Game K :=
  if !(g.targets t).active then g else collideBullets t g (List.finRange MAX_BULLETS)

/-- The "Bullet vs Target collision" block of `updateGame`. -/
def collisionPhase (g : Game K) : Game K :=
  (List.finRange NUM_TARGETS).foldl collideTarget g

/-- The `anyActive` scan of `updateGame` over the target indices still to visit. -/
def anyActive (ts : Fin NUM_TARGETS → Target K) : List (Fin NUM_TARGETS) → Bool
  | [] => false
  | t :: rest => if (ts t).active then true else anyActive ts rest

/-- The wave check at the end of `updateGame`. -/
def respawnCheck (E : Env K) (g : Game K) : Game K :=
  if !anyActive g.targets (List.finRange NUM_TARGETS) then resetTargets E g else g

/-- The state in which the collision block of `updateGame` starts: player and bullets moved. -/
def motionPhase (E : Env K) (g : Game K) : Game K :=
  let g1 : Game K := { g with player := movePlayer E g.player }
  { g1 with bullets := forEach moveBullet g1.bullets }

def updateGame (E : Env K) (g : Game K) : Game K :=
  if g.gameOver then g
  else respawnCheck E (collisionPhase (motionPhase E g))

/-! ## Input handling -/

/-- The keyboard handler; `none` is `exit(0)`. Key codes: ESC 27, space 32, `N` 78,
`f` 102, `h` 104, `n` 110, `r` 114, `s` 115, `w` 119. -/
def handleKeyboard (E : Env K) (key : Nat) (g : Game K) : Option (Game K) :=
  if g.gameOver ∧ key ≠ 27 ∧ key ≠ 110 ∧ key ≠ 78 then some g
  else if key = 119 then
    some { g with player := { g.player with speed := g.player.speed + 0.2 } }
  else if key = 115 then
    some { g with player := { g.player with speed := g.player.speed - 0.2 } }
  else if key = 114 then some { g with reflectScene := !g.reflectScene }
  else if key = 104 then some { g with shearEffect := !g.shearEffect }
  else if key = 32 then some (spawnBullet E g)
  else if key = 102 then some { g with player := { g.player with speed := 0 } }
  else if key = 110 ∨ key = 78 then some (restartGame E g)
  else if key = 27 then none
  else some g

def handleSpecial (key : Int) (g : Game K) : Game K :=
  if g.gameOver then g
  else if key = GLUT_KEY_LEFT then
    { g with player := { g.player with angle := g.player.angle + 5 } }
  else if key = GLUT_KEY_RIGHT then
    { g with player := { g.player with angle := g.player.angle - 5 } }
  else g

/-! ## Runs of the program -/

/-- What the GLUT main loop can deliver after `initGame`: a frame tick (`updateGame`),
a countdown second (`timerCallback`), a key, or a special key. -/
inductive Event where
  | frame : Event
  | second : Event
  | keyboard (key : Nat) : Event
  | special (key : Int) : Event

def step (E : Env K) (e : Event) (g : Game K) : Option (Game K) :=
  match e with
  | Event.frame => some (updateGame E g)
  | Event.second => some (timerCallback g)
  | Event.keyboard key => handleKeyboard E key g
  | Event.special key => some (handleSpecial key g)

/-- The state after the events of the list, in order; `none` once the process has exited. -/
def run (E : Env K) : List Event → Game K → Option (Game K)
  | [], g => some g
  | e :: rest, g => (step E e g).bind (run E rest)

/-- The states the program can be in: `initGame` on a stream of `std::rand` outputs
(each in `0..RAND_MAX`), then any events. -/
def Reachable (E : Env K) (g : Game K) : Prop :=
  ∃ (seeded : Nat → Nat) (evs : List Event),
    (∀ n, seeded n ≤ E.RAND_MAX) ∧ run E evs (initGame E seeded) = some g

/-! ## Counting, for the statements about waves and hits -/

/-- The number of active targets. -/
def activeCount (ts : Fin NUM_TARGETS → Target K) : Nat :=
  (Finset.univ.filter fun t => (ts t).active = true).card

/-- The number of hits of a tick: the targets that are active when `updateGame` starts and
inactive when its collision block ends. -/
def hitsOfTick (E : Env K) (g : Game K) : Nat :=
  (Finset.univ.filter fun t =>
    (g.targets t).active = true ∧ ((collisionPhase (motionPhase E g)).targets t).active = false).card

/-- The restart command: the key `n` (110) or `N` (78). -/
def isRestart : Event → Bool
  | Event.keyboard key => decide (key = 110) || decide (key = 78)
  | _ => false

/-- The number of countdown seconds among the events. -/
def countSeconds : List Event → Nat
  | [] => 0
  | Event.second :: rest => countSeconds rest + 1
  | _ :: rest => countSeconds rest

/-- Two states that differ at most in the data of bullet slot `i`, which is inactive in both. -/
def agreeOff (i : Fin MAX_BULLETS) (g g' : Game K) : Prop :=
  g.targets = g'.targets ∧ g.score = g'.score ∧ g.randState = g'.randState ∧
    (∀ b, b ≠ i → g.bullets b = g'.bullets b) ∧
    (g.bullets i).active = false ∧ (g'.bullets i).active = false

/-- The number of active bullets. -/
def activeBullets (bs : Fin MAX_BULLETS → Bullet K) : Nat :=
  (Finset.univ.filter fun b => (bs b).active = true).card

/-! ## The other order of the two checks, for comparison -/

/-- The position update of the "Bullets movement" loop, without its bounds check. -/
def advanceBullet (b : Bullet K) : Bullet K :=
  if !b.active then b
  else
    let b1 : Bullet K := { b with x := b.x + b.vx }
    { b1 with y := b1.y + b1.vy }

/-- The bounds check of the "Bullets movement" loop on its own. -/
def boundsCheck (b : Bullet K) : Bullet K :=
  if !b.active then b
  else if b.x < (INNER_X_MIN : K) ∨ b.x > (INNER_X_MAX : K) ∨
      b.y < (INNER_Y_MIN : K) ∨ b.y > (INNER_Y_MAX : K) then
    { b with active := false }
  else b

/-- The tick of the spec's open question, with the collision check before the bounds check:
`updateGame` with the bounds test taken out of the bullet loop and run as a loop of its own
after the collision block. It is not in the source; `updateGame` is compared with it. -/
def updateGameCollisionFirst (E : Env K) (g : Game K) : Game K :=
  if g.gameOver then g
  else
    let g1 : Game K := { g with player := movePlayer E g.player }
    let g2 : Game K := { g1 with bullets := forEach advanceBullet g1.bullets }
    let g3 := collisionPhase g2
    let g4 : Game K := { g3 with bullets := forEach boundsCheck g3.bullets }
    respawnCheck E g4

/-- A target as `resetTargets` makes it: radius 15, centre in `[180, 620] x [180, 420]`. -/
def inMargin (t : Target K) : Prop :=
  t.radius = 15 ∧ (180 : K) ≤ t.x ∧ t.x ≤ 620 ∧ (180 : K) ≤ t.y ∧ t.y ≤ 420

/-- The relation between the two orders during the collision block: `gA` has had the bounds
check, `gB` has not; they agree on everything but the flags of the bullets out of bounds, and
their targets are as `resetTargets` makes them. -/
def boundsDeferred (gA gB : Game K) : Prop :=
  gA.player = gB.player ∧ gA.reflectScene = gB.reflectScene ∧ gA.shearEffect = gB.shearEffect ∧
    gA.score = gB.score ∧ gA.timeLeft = gB.timeLeft ∧ gA.gameOver = gB.gameOver ∧
    gA.targets = gB.targets ∧ gA.randState = gB.randState ∧
    (∀ b, gA.bullets b = boundsCheck (gB.bullets b)) ∧ (∀ t, inMargin (gB.targets t))

end Code

/-! ## Concrete data for evaluation -/

/-- A rational stand-in for the C library: truncated Taylor series for sine and cosine. -/
def envQ : Env ℚ :=
  { M_PI := 355 / 113
    sin := fun a => a - a ^ 3 / 6
    cos := fun a => 1 - a ^ 2 / 2
    RAND_MAX := 32767 }

/-- A stream of `std::rand` outputs below `RAND_MAX = 32767`. -/
def sampleRand : Nat → Nat := fun n => (7919 * n + 13) % 32768

/-- A Playing state whose player is far outside the track, heading 0, speed 9. -/
def strayGame : Game ℚ :=
  { player := { x := 1000, y := -50, angle := 0, speed := 9 }
    reflectScene := false
    shearEffect := false
    score := 7
    timeLeft := 30
    gameOver := false
    bullets := fun _ => { x := 0, y := 0, vx := 0, vy := 0, active := false }
    targets := fun i => { x := 200 + 50 * (i.val : ℚ), y := 300, radius := 15, active := true }
    randState := sampleRand }

/-- One active bullet in slot 2 that reaches `(400, 300)` on the next tick, within the
hit threshold of targets 0 and 1. -/
def duelGame : Game ℚ :=
  { player := { x := 400, y := 190, angle := 0, speed := 0 }
    reflectScene := false
    shearEffect := false
    score := 7
    timeLeft := 30
    gameOver := false
    bullets := fun b =>
      if b = 2 then { x := 400, y := 308, vx := 0, vy := -8, active := true }
      else { x := 0, y := 0, vx := 0, vy := 0, active := false }
    targets := fun t =>
      if t = 0 then { x := 400, y := 300, radius := 15, active := true }
      else if t = 1 then { x := 410, y := 300, radius := 15, active := true }
      else { x := 200, y := 200, radius := 15, active := true }
    randState := sampleRand }

/-- The state `duelGame` with target 0 as the last active target. -/
def lastTargetGame : Game ℚ :=
  { duelGame with
    targets := fun t => { duelGame.targets t with active := decide (t = 0) } }

/-- The state `duelGame` after the countdown has ended, with the visual toggles on. -/
def overGame : Game ℚ :=
  { duelGame with gameOver := true, timeLeft := 0, reflectScene := true, shearEffect := true }

/-- The state `duelGame` with all 20 bullet slots in flight. -/
def fullPoolGame : Game ℚ :=
  { duelGame with bullets := fun _ => { x := 300, y := 250, vx := 0, vy := 8, active := true } }

/-- The state `duelGame` with the bullet of slot 2 about to leave through the top wall
`y = 140` at a point within the hit threshold of target 0, which sits at `(400, 150)`. -/
def exitGame : Game ℚ :=
  { duelGame with
    bullets := fun b =>
      if b = 2 then { x := 400, y := 143, vx := 0, vy := -8, active := true }
      else { x := 0, y := 0, vx := 0, vy := 0, active := false }
    targets := fun t =>
      if t = 0 then { x := 400, y := 150, radius := 15, active := true }
      else { x := 200, y := 200, radius := 15, active := true } }

/-- The state `duelGame` with the player in mid-field at `(400, 300)`, heading 0, speed 3. -/
def cruiseGame : Game ℚ :=
  { duelGame with player := { x := 400, y := 300, angle := 0, speed := 3 } }

/-- The state `duelGame` with the player at top speed 5 and heading 358. -/
def edgeGame : Game ℚ :=
  { duelGame with player := { x := 400, y := 300, angle := 358, speed := 5 } }

/-! ## Basic facts -/

section Facts

variable {K : Type} [LinearOrderedField K]

theorem INNER_X_MIN_cast : ((INNER_X_MIN : Int) : K) = 140 := by
  norm_num [INNER_X_MIN, TRACK_X_MIN, CURB_OFFSET]

theorem INNER_Y_MIN_cast : ((INNER_Y_MIN : Int) : K) = 140 := by
  norm_num [INNER_Y_MIN, TRACK_Y_MIN, CURB_OFFSET]

theorem INNER_X_MAX_cast : ((INNER_X_MAX : Int) : K) = 660 := by
  norm_num [INNER_X_MAX, TRACK_X_MAX, TRACK_X_MIN, CURB_OFFSET]

theorem INNER_Y_MAX_cast : ((INNER_Y_MAX : Int) : K) = 460 := by
  norm_num [INNER_Y_MAX, TRACK_Y_MAX, TRACK_Y_MIN, CURB_OFFSET]

theorem centerX_cast : ((INNER_X_MIN + INNER_X_MAX : Int) : K) / 2 = 400 := by
  norm_num [INNER_X_MIN, INNER_X_MAX, TRACK_X_MAX, TRACK_X_MIN, CURB_OFFSET]

/-- The array loop visits every index once, so it acts pointwise. -/
theorem foldl_update_apply {n : Nat} {α : Type} (f : α → α) (l : List (Fin n)) (hl : l.Nodup)
    (arr : Fin n → α) (j : Fin n) :
    (l.foldl (fun a i => Function.update a i (f (a i))) arr) j
      = if j ∈ l then f (arr j) else arr j := by
  induction l generalizing arr with
  | nil => simp
  | cons i rest ih =>
    rw [List.nodup_cons] at hl
    rw [List.foldl_cons, ih hl.2]
    by_cases hji : j = i
    · subst hji
      simp [hl.1]
    · simp [hji, Function.update_noteq hji]

theorem forEach_apply {n : Nat} {α : Type} (f : α → α) (arr : Fin n → α) (j : Fin n) :
    forEach f arr j = f (arr j) := by
  unfold forEach
  rw [foldl_update_apply f _ (List.nodup_finRange n)]
  simp [List.mem_finRange]

theorem forEach_eq {n : Nat} {α : Type} (f : α → α) (arr : Fin n → α) :
    forEach f arr = fun j => f (arr j) :=
  funext (forEach_apply f arr)

theorem finRange_targets :
    List.finRange NUM_TARGETS =
      [⟨0, by decide⟩, ⟨1, by decide⟩, ⟨2, by decide⟩, ⟨3, by decide⟩, ⟨4, by decide⟩] := by
  decide

/-- Closed form of `resetTargets`: target `i` is drawn from outputs `2 i` and `2 i + 1`
of the generator, and ten outputs are consumed. -/
theorem resetTargets_eq (E : Env K) (g : Game K) :
    resetTargets E g =
      { g with
        targets := fun i =>
          { x := randFloat E 180 620 (g.randState (2 * i.val))
            y := randFloat E 180 420 (g.randState (2 * i.val + 1))
            radius := 15
            active := true }
        randState := fun n => g.randState (n + 10) } := by
  have hx0 : ((INNER_X_MIN : Int) : K) + 40 = 180 := by rw [INNER_X_MIN_cast]; norm_num
  have hx1 : ((INNER_X_MAX : Int) : K) - 40 = 620 := by rw [INNER_X_MAX_cast]; norm_num
  have hy0 : ((INNER_Y_MIN : Int) : K) + 40 = 180 := by rw [INNER_Y_MIN_cast]; norm_num
  have hy1 : ((INNER_Y_MAX : Int) : K) - 40 = 420 := by rw [INNER_Y_MAX_cast]; norm_num
  unfold resetTargets
  simp only [hx0, hx1, hy0, hy1, finRange_targets, List.foldl_cons, List.foldl_nil,
    resetTargetsBody, rand]
  congr 1
  funext i
  obtain ⟨i, hi⟩ := i
  interval_cases i <;> simp [Function.update, Fin.ext_iff]

/-! ### What each phase of `updateGame` leaves alone -/

theorem resetTargets_bullets (E : Env K) (g : Game K) :
    (resetTargets E g).bullets = g.bullets := by
  rw [resetTargets_eq]

theorem respawnCheck_frame (E : Env K) (g : Game K) :
    (respawnCheck E g).player = g.player ∧ (respawnCheck E g).bullets = g.bullets ∧
      (respawnCheck E g).score = g.score ∧ (respawnCheck E g).timeLeft = g.timeLeft ∧
      (respawnCheck E g).gameOver = g.gameOver ∧
      (respawnCheck E g).reflectScene = g.reflectScene ∧
      (respawnCheck E g).shearEffect = g.shearEffect := by
  unfold respawnCheck
  split <;> simp [resetTargets_eq]

theorem collideBullets_frame (t : Fin NUM_TARGETS) (g : Game K) (l : List (Fin MAX_BULLETS)) :
    (collideBullets t g l).player = g.player ∧ (collideBullets t g l).timeLeft = g.timeLeft ∧
      (collideBullets t g l).gameOver = g.gameOver ∧
      (collideBullets t g l).reflectScene = g.reflectScene ∧
      (collideBullets t g l).shearEffect = g.shearEffect ∧
      (collideBullets t g l).randState = g.randState := by
  induction l with
  | nil => simp [collideBullets]
  | cons b rest ih =>
    unfold collideBullets
    split
    · exact ih
    · split
      · simp [applyHit]
      · exact ih

theorem collideTarget_frame (g : Game K) (t : Fin NUM_TARGETS) :
    (collideTarget g t).player = g.player ∧ (collideTarget g t).timeLeft = g.timeLeft ∧
      (collideTarget g t).gameOver = g.gameOver ∧
      (collideTarget g t).reflectScene = g.reflectScene ∧
      (collideTarget g t).shearEffect = g.shearEffect ∧
      (collideTarget g t).randState = g.randState := by
  unfold collideTarget
  split
  · simp
  · exact collideBullets_frame t g _

theorem foldl_collideTarget_frame (l : List (Fin NUM_TARGETS)) (g : Game K) :
    (l.foldl collideTarget g).player = g.player ∧ (l.foldl collideTarget g).timeLeft = g.timeLeft ∧
      (l.foldl collideTarget g).gameOver = g.gameOver ∧
      (l.foldl collideTarget g).reflectScene = g.reflectScene ∧
      (l.foldl collideTarget g).shearEffect = g.shearEffect ∧
      (l.foldl collideTarget g).randState = g.randState := by
  induction l generalizing g with
  | nil => simp
  | cons t rest ih =>
    rw [List.foldl_cons]
    obtain ⟨h1, h2, h3, h4, h5, h6⟩ := ih (collideTarget g t)
    obtain ⟨k1, k2, k3, k4, k5, k6⟩ := collideTarget_frame g t
    exact ⟨h1.trans k1, h2.trans k2, h3.trans k3, h4.trans k4, h5.trans k5, h6.trans k6⟩

theorem collisionPhase_frame (g : Game K) :
    (collisionPhase g).player = g.player ∧ (collisionPhase g).timeLeft = g.timeLeft ∧
      (collisionPhase g).gameOver = g.gameOver ∧
      (collisionPhase g).reflectScene = g.reflectScene ∧
      (collisionPhase g).shearEffect = g.shearEffect ∧
      (collisionPhase g).randState = g.randState :=
  foldl_collideTarget_frame _ g

theorem updateGame_playing (E : Env K) (g : Game K) (h : g.gameOver = false) :
    updateGame E g = respawnCheck E (collisionPhase (motionPhase E g)) := by
  simp [updateGame, h]

theorem updateGame_player (E : Env K) (g : Game K) (h : g.gameOver = false) :
    (updateGame E g).player = movePlayer E g.player := by
  rw [updateGame_playing E g h, (respawnCheck_frame E _).1, (collisionPhase_frame _).1]
  rfl

theorem updateGame_timeLeft (E : Env K) (g : Game K) :
    (updateGame E g).timeLeft = g.timeLeft := by
  unfold updateGame
  split
  · rfl
  · rw [(respawnCheck_frame E _).2.2.2.1, (collisionPhase_frame _).2.1]
    rfl

theorem updateGame_gameOver (E : Env K) (g : Game K) :
    (updateGame E g).gameOver = g.gameOver := by
  unfold updateGame
  split
  · rfl
  · rw [(respawnCheck_frame E _).2.2.2.2.1, (collisionPhase_frame _).2.2.1]
    rfl

/-! ### The player step -/

theorem movePlayer_x (E : Env K) (p : Car K) :
    (movePlayer E p).x =
      if (if p.x + p.speed * E.sin (p.angle * E.M_PI / 180) < 140 then (140 : K)
          else p.x + p.speed * E.sin (p.angle * E.M_PI / 180)) > 660 then 660
      else if p.x + p.speed * E.sin (p.angle * E.M_PI / 180) < 140 then 140
      else p.x + p.speed * E.sin (p.angle * E.M_PI / 180) := by
  simp only [movePlayer, INNER_X_MIN_cast, INNER_X_MAX_cast, INNER_Y_MIN_cast, INNER_Y_MAX_cast,
    apply_ite Car.x, apply_ite Car.y, apply_ite Car.speed, ite_self]

theorem movePlayer_y (E : Env K) (p : Car K) :
    (movePlayer E p).y =
      if (if p.y + -p.speed * E.cos (p.angle * E.M_PI / 180) < 140 then (140 : K)
          else p.y + -p.speed * E.cos (p.angle * E.M_PI / 180)) > 460 then 460
      else if p.y + -p.speed * E.cos (p.angle * E.M_PI / 180) < 140 then 140
      else p.y + -p.speed * E.cos (p.angle * E.M_PI / 180) := by
  simp only [movePlayer, INNER_X_MIN_cast, INNER_X_MAX_cast, INNER_Y_MIN_cast, INNER_Y_MAX_cast,
    apply_ite Car.x, apply_ite Car.y, apply_ite Car.speed, ite_self]

theorem movePlayer_angle (E : Env K) (p : Car K) : (movePlayer E p).angle = p.angle := by
  simp only [movePlayer, apply_ite Car.angle, ite_self]

theorem movePlayer_speed (E : Env K) (p : Car K) :
    (movePlayer E p).speed =
      if (if p.speed > 5 then (5 : K) else p.speed) < -2 then -2
      else if p.speed > 5 then 5 else p.speed := by
  simp only [movePlayer, apply_ite Car.speed, ite_self]

theorem movePlayer_inBounds (E : Env K) (p : Car K) :
    (140 : K) ≤ (movePlayer E p).x ∧ (movePlayer E p).x ≤ 660 ∧
      (140 : K) ≤ (movePlayer E p).y ∧ (movePlayer E p).y ≤ 460 := by
  rw [movePlayer_x, movePlayer_y]
  refine ⟨?_, ?_, ?_, ?_⟩ <;> split_ifs <;> linarith

/-! ### Closed forms of `restartGame`, `initGame` and `timerCallback` -/

theorem restartGame_eq (E : Env K) (g : Game K) :
    restartGame E g =
      { g with
        player := { x := 400, y := 190, angle := 0, speed := 0 }
        bullets := fun j => { g.bullets j with active := false }
        targets := fun i =>
          { x := randFloat E 180 620 (g.randState (2 * i.val))
            y := randFloat E 180 420 (g.randState (2 * i.val + 1))
            radius := 15
            active := true }
        randState := fun n => g.randState (n + 10)
        score := 0
        timeLeft := 60
        gameOver := false } := by
  have hy : ((INNER_Y_MIN : Int) : K) + 50 = 190 := by rw [INNER_Y_MIN_cast]; norm_num
  simp only [restartGame, resetTargets_eq, forEach_eq, centerX_cast, hy]

theorem initGame_eq (E : Env K) (seeded : Nat → Nat) :
    initGame E seeded =
      { player := { x := 400, y := 190, angle := 180, speed := 0 }
        reflectScene := false
        shearEffect := false
        score := 0
        timeLeft := 60
        gameOver := false
        bullets := fun _ => { x := 0, y := 0, vx := 0, vy := 0, active := false }
        targets := fun i =>
          { x := randFloat E 180 620 (seeded (2 * i.val))
            y := randFloat E 180 420 (seeded (2 * i.val + 1))
            radius := 15
            active := true }
        randState := fun n => seeded (n + 10) } := by
  have hy : ((INNER_Y_MIN : Int) : K) + 50 = 190 := by rw [INNER_Y_MIN_cast]; norm_num
  simp only [initGame, staticInit, resetTargets_eq, forEach_eq, centerX_cast, hy]

omit [LinearOrderedField K] in
theorem timerCallback_player (g : Game K) : (timerCallback g).player = g.player := by
  simp only [timerCallback]
  split_ifs <;> rfl

theorem handleSpecial_position (key : Int) (g : Game K) :
    (handleSpecial key g).player.x = g.player.x ∧ (handleSpecial key g).player.y = g.player.y := by
  unfold handleSpecial
  split_ifs <;> exact ⟨rfl, rfl⟩

theorem spawnBullet_frame (E : Env K) (g : Game K) :
    (spawnBullet E g).player = g.player ∧ (spawnBullet E g).targets = g.targets ∧
      (spawnBullet E g).score = g.score ∧ (spawnBullet E g).timeLeft = g.timeLeft ∧
      (spawnBullet E g).gameOver = g.gameOver ∧
      (spawnBullet E g).reflectScene = g.reflectScene ∧
      (spawnBullet E g).shearEffect = g.shearEffect ∧
      (spawnBullet E g).randState = g.randState := by
  unfold spawnBullet
  split
  · simp
  · split <;> simp

/-- A key press either restarts the game or leaves the player position alone. -/
theorem handleKeyboard_position (E : Env K) (key : Nat) (g g' : Game K)
    (h : handleKeyboard E key g = some g') :
    (g'.player.x = g.player.x ∧ g'.player.y = g.player.y) ∨
      (g'.player.x = 400 ∧ g'.player.y = 190) := by
  unfold handleKeyboard at h
  split_ifs at h <;> simp only [Option.some.injEq] at h <;> subst h
  all_goals first
    | exact Or.inl ⟨rfl, rfl⟩
    | exact Or.inl ⟨by rw [(spawnBullet_frame E g).1], by rw [(spawnBullet_frame E g).1]⟩
    | exact Or.inr (by rw [restartGame_eq]; exact ⟨rfl, rfl⟩)

/-! ### Invariants of runs -/

theorem run_invariant (E : Env K) (Inv : Game K → Prop)
    (hstep : ∀ e g g', Inv g → step E e g = some g' → Inv g') :
    ∀ (evs : List Event) (g g' : Game K), Inv g → run E evs g = some g' → Inv g' := by
  intro evs
  induction evs with
  | nil =>
    intro g g' hg h
    simp only [run, Option.some.injEq] at h
    exact h ▸ hg
  | cons e rest ih =>
    intro g g' hg h
    simp only [run] at h
    cases hs : step E e g with
    | none => simp [hs] at h
    | some g1 =>
      rw [hs] at h
      exact ih g1 g' (hstep e g g1 hg hs) h

theorem reachable_invariant (E : Env K) (Inv : Game K → Prop)
    (hinit : ∀ seeded : Nat → Nat, (∀ n, seeded n ≤ E.RAND_MAX) → Inv (initGame E seeded))
    (hstep : ∀ e g g', Inv g → step E e g = some g' → Inv g')
    (g : Game K) (hg : Reachable E g) : Inv g := by
  obtain ⟨seeded, evs, hb, hrun⟩ := hg
  exact run_invariant E Inv hstep evs _ g (hinit seeded hb) hrun

theorem step_playerInBounds (E : Env K) (e : Event) (g g' : Game K)
    (hg : (140 : K) ≤ g.player.x ∧ g.player.x ≤ 660 ∧ (140 : K) ≤ g.player.y ∧ g.player.y ≤ 460)
    (h : step E e g = some g') :
    (140 : K) ≤ g'.player.x ∧ g'.player.x ≤ 660 ∧ (140 : K) ≤ g'.player.y ∧ g'.player.y ≤ 460 := by
  cases e with
  | frame =>
    simp only [step, Option.some.injEq] at h
    subst h
    by_cases hgo : g.gameOver = true
    · simpa [updateGame, hgo] using hg
    · rw [updateGame_player E g (by simpa using hgo)]
      exact movePlayer_inBounds E g.player
  | second =>
    simp only [step, Option.some.injEq] at h
    subst h
    rw [timerCallback_player]
    exact hg
  | keyboard key =>
    simp only [step] at h
    rcases handleKeyboard_position E key g g' h with ⟨hx, hy⟩ | ⟨hx, hy⟩
    · rw [hx, hy]; exact hg
    · rw [hx, hy]; norm_num
  | special key =>
    simp only [step, Option.some.injEq] at h
    subst h
    rw [(handleSpecial_position key g).1, (handleSpecial_position key g).2]
    exact hg

/-! ### The collision loops -/

theorem hitTest_iff (b : Bullet K) (t : Target K) :
    hitTest b t = true ↔ (b.x - t.x) ^ 2 + (b.y - t.y) ^ 2 ≤ (t.radius + 4) ^ 2 := by
  simp only [hitTest, decide_eq_true_eq, pow_two]

/-- With no active bullet in the list that passes the hit test, the inner loop changes nothing. -/
theorem collideBullets_skip (t : Fin NUM_TARGETS) (g : Game K) (l : List (Fin MAX_BULLETS))
    (h : ∀ b ∈ l, (g.bullets b).active = true → hitTest (g.bullets b) (g.targets t) = false) :
    collideBullets t g l = g := by
  induction l with
  | nil => rfl
  | cons b rest ih =>
    have hrest := ih (fun b' hb' => h b' (List.mem_cons_of_mem _ hb'))
    unfold collideBullets
    by_cases hb : (g.bullets b).active = true
    · have := h b (List.mem_cons_self _ _) hb
      simp [hb, this, hrest]
    · simp [hb, hrest]

/-- The inner loop stops at the lowest-indexed active bullet that passes the hit test. -/
theorem collideBullets_hit (t : Fin NUM_TARGETS) (g : Game K) (b : Fin MAX_BULLETS)
    (l : List (Fin MAX_BULLETS)) (hl : l.Pairwise (· < ·)) (hb : b ∈ l)
    (hact : (g.bullets b).active = true) (hhit : hitTest (g.bullets b) (g.targets t) = true)
    (hlow : ∀ b', b' < b → (g.bullets b').active = true →
      hitTest (g.bullets b') (g.targets t) = false) :
    collideBullets t g l = applyHit g t b := by
  induction l with
  | nil => simp at hb
  | cons a rest ih =>
    rw [List.pairwise_cons] at hl
    unfold collideBullets
    rcases List.mem_cons.1 hb with rfl | hmem
    · simp [hact, hhit]
    · have hlt : a < b := hl.1 b hmem
      by_cases ha : (g.bullets a).active = true
      · simp [ha, hlow a hlt ha, ih hl.2 hmem]
      · simp [ha, ih hl.2 hmem]

/-- One outer iteration either changes nothing or applies one hit to an active target and an
active bullet that passes the hit test, the lowest-indexed such bullet. -/
theorem collideTarget_cases (g : Game K) (t : Fin NUM_TARGETS) :
    collideTarget g t = g ∨
      ∃ b, (g.targets t).active = true ∧ (g.bullets b).active = true ∧
        hitTest (g.bullets b) (g.targets t) = true ∧
        (∀ b', b' < b → (g.bullets b').active = true →
          hitTest (g.bullets b') (g.targets t) = false) ∧
        collideTarget g t = applyHit g t b := by
  unfold collideTarget
  by_cases ht : (g.targets t).active = true
  · simp only [ht, Bool.not_true, Bool.false_eq_true, if_false]
    by_cases hex : ∃ b, (g.bullets b).active = true ∧ hitTest (g.bullets b) (g.targets t) = true
    · right
      obtain ⟨b, hbmin, hlow⟩ := Finset.exists_minimal
        (Finset.univ.filter fun b => (g.bullets b).active = true ∧
          hitTest (g.bullets b) (g.targets t) = true)
        (by obtain ⟨b, hb⟩ := hex; exact ⟨b, by simp [hb]⟩)
      simp only [Finset.mem_filter, Finset.mem_univ, true_and] at hbmin hlow
      have hlow' : ∀ b', b' < b → (g.bullets b').active = true →
          hitTest (g.bullets b') (g.targets t) = false := by
        intro b' hlt hact
        by_contra hne
        exact hlow b' ⟨hact, by simpa using hne⟩ hlt
      exact ⟨b, trivial, hbmin.1, hbmin.2, hlow',
        collideBullets_hit t g b _ (List.pairwise_lt_finRange _) (List.mem_finRange b)
          hbmin.1 hbmin.2 hlow'⟩
    · left
      apply collideBullets_skip
      intro b _ hact
      by_contra hne
      exact hex ⟨b, hact, by simpa using hne⟩
  · left
    simp [ht]

/-- Without any hit available the whole collision block changes nothing. -/
theorem foldl_collideTarget_skip (l : List (Fin NUM_TARGETS)) (g : Game K)
    (h : ∀ t ∈ l, ∀ b, (g.targets t).active = true → (g.bullets b).active = true →
      hitTest (g.bullets b) (g.targets t) = false) :
    l.foldl collideTarget g = g := by
  induction l with
  | nil => rfl
  | cons t rest ih =>
    have hstep : collideTarget g t = g := by
      unfold collideTarget
      by_cases ht : (g.targets t).active = true
      · simp only [ht, Bool.not_true, Bool.false_eq_true, if_false]
        exact collideBullets_skip t g _ (fun b _ hb => h t (List.mem_cons_self _ _) b ht hb)
      · simp [ht]
    rw [List.foldl_cons, hstep]
    exact ih (fun t' ht' => h t' (List.mem_cons_of_mem _ ht'))

/-- A rule for showing that a property survives the collision block: it has to
survive each single hit. -/
theorem foldl_collideTarget_induction (P : Game K → Prop)
    (hstep : ∀ g t b, P g → (g.targets t).active = true → (g.bullets b).active = true →
      hitTest (g.bullets b) (g.targets t) = true → P (applyHit g t b))
    (l : List (Fin NUM_TARGETS)) (g : Game K) (hg : P g) : P (l.foldl collideTarget g) := by
  induction l generalizing g with
  | nil => exact hg
  | cons t rest ih =>
    rw [List.foldl_cons]
    apply ih
    rcases collideTarget_cases g t with h | ⟨b, ht, hb, hh, _, h⟩
    · rw [h]; exact hg
    · rw [h]; exact hstep g t b hg ht hb hh

/-! ### The motion phase -/

theorem moveBullet_inactive (b : Bullet K) (h : b.active = false) : moveBullet b = b := by
  simp [moveBullet, h]

/-- An active bullet advances by its velocity and stays active exactly inside the rectangle. -/
theorem moveBullet_active (b : Bullet K) (h : b.active = true) :
    (moveBullet b).x = b.x + b.vx ∧ (moveBullet b).y = b.y + b.vy ∧
      (moveBullet b).vx = b.vx ∧ (moveBullet b).vy = b.vy ∧
      ((moveBullet b).active = true ↔
        ((140 : K) ≤ b.x + b.vx ∧ b.x + b.vx ≤ 660 ∧ (140 : K) ≤ b.y + b.vy ∧ b.y + b.vy ≤ 460)) := by
  simp only [moveBullet, h, Bool.not_true, Bool.false_eq_true, if_false, INNER_X_MIN_cast,
    INNER_X_MAX_cast, INNER_Y_MIN_cast, INNER_Y_MAX_cast]
  split_ifs with hc
  · refine ⟨rfl, rfl, rfl, rfl, ?_⟩
    simp only [Bool.false_eq_true, false_iff, not_and, not_le]
    intro h1 h2 h3
    rcases hc with hc | hc | hc | hc
    · exact absurd h1 (not_le.2 hc)
    · exact absurd h2 (not_le.2 hc)
    · exact absurd h3 (not_le.2 hc)
    · exact hc
  · refine ⟨rfl, rfl, rfl, rfl, ?_⟩
    simp only [not_or, not_lt] at hc
    simp only [h, true_iff]
    exact ⟨hc.1, hc.2.1, hc.2.2.1, hc.2.2.2⟩

theorem moveBullet_active_imp (b : Bullet K) (h : (moveBullet b).active = true) :
    b.active = true := by
  by_contra hb
  rw [moveBullet_inactive b (by simpa using hb)] at h
  exact hb h

theorem motionPhase_bullets (E : Env K) (g : Game K) (b : Fin MAX_BULLETS) :
    (motionPhase E g).bullets b = moveBullet (g.bullets b) := by
  simp only [motionPhase, forEach_apply]

theorem motionPhase_frame (E : Env K) (g : Game K) :
    (motionPhase E g).targets = g.targets ∧ (motionPhase E g).score = g.score ∧
      (motionPhase E g).randState = g.randState ∧ (motionPhase E g).timeLeft = g.timeLeft ∧
      (motionPhase E g).gameOver = g.gameOver ∧
      (motionPhase E g).reflectScene = g.reflectScene ∧
      (motionPhase E g).shearEffect = g.shearEffect :=
  ⟨rfl, rfl, rfl, rfl, rfl, rfl, rfl⟩

theorem updateGame_bullets (E : Env K) (g : Game K) (h : g.gameOver = false) :
    (updateGame E g).bullets = (collisionPhase (motionPhase E g)).bullets := by
  rw [updateGame_playing E g h, (respawnCheck_frame E _).2.1]

theorem updateGame_score (E : Env K) (g : Game K) (h : g.gameOver = false) :
    (updateGame E g).score = (collisionPhase (motionPhase E g)).score := by
  rw [updateGame_playing E g h, (respawnCheck_frame E _).2.2.1]

omit [LinearOrderedField K] in
theorem anyActive_iff (ts : Fin NUM_TARGETS → Target K) (l : List (Fin NUM_TARGETS)) :
    anyActive ts l = true ↔ ∃ t ∈ l, (ts t).active = true := by
  induction l with
  | nil => simp [anyActive]
  | cons t rest ih =>
    unfold anyActive
    by_cases ht : (ts t).active = true
    · simp [ht]
    · simp [ht, ih]

/-- The wave check leaves the state alone when some target is active. -/
theorem respawnCheck_of_active (E : Env K) (g : Game K) (t : Fin NUM_TARGETS)
    (ht : (g.targets t).active = true) : respawnCheck E g = g := by
  have : anyActive g.targets (List.finRange NUM_TARGETS) = true :=
    (anyActive_iff _ _).2 ⟨t, List.mem_finRange t, ht⟩
  simp [respawnCheck, this]

/-- The wave check respawns when no target is active. -/
theorem respawnCheck_of_none (E : Env K) (g : Game K)
    (h : ∀ t, (g.targets t).active = false) : respawnCheck E g = resetTargets E g := by
  have : anyActive g.targets (List.finRange NUM_TARGETS) = false := by
    rw [← Bool.not_eq_true, anyActive_iff]
    rintro ⟨t, _, ht⟩
    rw [h t] at ht
    exact Bool.false_ne_true ht
  simp [respawnCheck, this]

/-! ### The collision block with a single active bullet -/

omit [LinearOrderedField K] in
theorem applyHit_bullets_inactive (g : Game K) (t : Fin NUM_TARGETS) (b0 : Fin MAX_BULLETS)
    (honly : ∀ b, (g.bullets b).active = true → b = b0) (b : Fin MAX_BULLETS) :
    ((applyHit g t b0).bullets b).active = false := by
  by_cases hb : b = b0
  · subst hb
    simp [applyHit]
  · have : (g.bullets b).active = false := by
      by_contra hne
      exact hb (honly b (by simpa using hne))
    simp [applyHit, Function.update_noteq hb, this]

/-- With one active bullet `b0`, the collision block hits the lowest-indexed active target
within the threshold of `b0` and nothing else. -/
theorem foldl_collideTarget_single (g : Game K) (b0 : Fin MAX_BULLETS) (t0 : Fin NUM_TARGETS)
    (honly : ∀ b, (g.bullets b).active = true → b = b0)
    (hb0 : (g.bullets b0).active = true)
    (l : List (Fin NUM_TARGETS)) (hl : l.Pairwise (· < ·)) (ht0 : t0 ∈ l)
    (hact : (g.targets t0).active = true)
    (hhit : hitTest (g.bullets b0) (g.targets t0) = true)
    (hlow : ∀ t, t < t0 → (g.targets t).active = true →
      hitTest (g.bullets b0) (g.targets t) = false) :
    l.foldl collideTarget g = applyHit g t0 b0 := by
  induction l with
  | nil => simp at ht0
  | cons a rest ih =>
    rw [List.pairwise_cons] at hl
    rw [List.foldl_cons]
    rcases List.mem_cons.1 ht0 with rfl | hmem
    · have hstep : collideTarget g t0 = applyHit g t0 b0 := by
        unfold collideTarget
        simp only [hact, Bool.not_true, Bool.false_eq_true, if_false]
        apply collideBullets_hit t0 g b0 _ (List.pairwise_lt_finRange _) (List.mem_finRange b0)
          hb0 hhit
        intro b' hlt hb'
        exact absurd (honly b' hb') (ne_of_lt hlt)
      rw [hstep]
      apply foldl_collideTarget_skip
      intro t _ b _ hb
      rw [applyHit_bullets_inactive g t0 b0 honly b] at hb
      exact absurd hb Bool.false_ne_true
    · have hlt : a < t0 := hl.1 t0 hmem
      have hstep : collideTarget g a = g := by
        unfold collideTarget
        by_cases ha : (g.targets a).active = true
        · simp only [ha, Bool.not_true, Bool.false_eq_true, if_false]
          apply collideBullets_skip
          intro b _ hb
          rw [honly b hb]
          exact hlow a hlt ha
        · simp [ha]
      rw [hstep]
      exact ih hl.2 hmem

/-! ### Score and targets through the collision block -/

/-- The collision block never activates a target, and it raises the score by the number of
targets it deactivates. -/
theorem foldl_collideTarget_score (l : List (Fin NUM_TARGETS)) (g : Game K) :
    (∀ t, ((l.foldl collideTarget g).targets t).active = true → (g.targets t).active = true) ∧
      (l.foldl collideTarget g).score = g.score +
        ((Finset.univ.filter fun t => (g.targets t).active = true ∧
          ((l.foldl collideTarget g).targets t).active = false).card : Int) := by
  refine foldl_collideTarget_induction
    (fun g' => (∀ t, (g'.targets t).active = true → (g.targets t).active = true) ∧
      g'.score = g.score +
        ((Finset.univ.filter fun t => (g.targets t).active = true ∧
          (g'.targets t).active = false).card : Int)) ?_ l g ?_
  · rintro g' t b ⟨hmono, hscore⟩ ht _ _
    constructor
    · intro t' ht'
      by_cases hne : t' = t
      · subst hne
        simp [applyHit] at ht'
      · apply hmono
        simpa [applyHit, Function.update_noteq hne] using ht'
    · have hset : (Finset.univ.filter fun t' => (g.targets t').active = true ∧
          ((applyHit g' t b).targets t').active = false) =
          insert t (Finset.univ.filter fun t' => (g.targets t').active = true ∧
            (g'.targets t').active = false) := by
        ext t'
        by_cases hne : t' = t
        · subst hne
          simp [applyHit, hmono t' ht]
        · simp [applyHit, Function.update_noteq hne, hne]
      have hnot : t ∉ (Finset.univ.filter fun t' => (g.targets t').active = true ∧
          (g'.targets t').active = false) := by
        simp [ht]
      rw [hset, Finset.card_insert_of_not_mem hnot]
      simp only [applyHit, hscore]
      push_cast
      ring
  · simp

theorem collisionPhase_score (g : Game K) :
    (collisionPhase g).score = g.score +
      ((Finset.univ.filter fun t => (g.targets t).active = true ∧
        ((collisionPhase g).targets t).active = false).card : Int) :=
  (foldl_collideTarget_score _ g).2

theorem collisionPhase_active_imp (g : Game K) (t : Fin NUM_TARGETS)
    (h : ((collisionPhase g).targets t).active = true) : (g.targets t).active = true :=
  (foldl_collideTarget_score _ g).1 t h

theorem updateGame_score_hits (E : Env K) (g : Game K) (h : g.gameOver = false) :
    (updateGame E g).score = g.score + (hitsOfTick E g : Int) := by
  rw [updateGame_score E g h, collisionPhase_score]
  rfl

/-! ### The random wave -/

theorem randFloat_mem (E : Env K) (a b : K) (r : Nat) (hab : a ≤ b) (hr : r ≤ E.RAND_MAX) :
    a ≤ randFloat E a b r ∧ randFloat E a b r ≤ b := by
  have h0 : (0 : K) ≤ (r : K) / (E.RAND_MAX : K) :=
    div_nonneg (Nat.cast_nonneg r) (Nat.cast_nonneg _)
  have h1 : (r : K) / (E.RAND_MAX : K) ≤ 1 :=
    div_le_one_of_le₀ (Nat.cast_le.2 hr) (Nat.cast_nonneg _)
  have hba : 0 ≤ b - a := sub_nonneg.2 hab
  unfold randFloat
  constructor
  · nlinarith [mul_nonneg hba h0]
  · nlinarith [mul_le_mul_of_nonneg_left h1 hba]

/-- Every target of a fresh wave is active, has radius 15 and lies in the margin rectangle. -/
theorem resetTargets_wave (E : Env K) (g : Game K) (hrand : ∀ n, g.randState n ≤ E.RAND_MAX)
    (t : Fin NUM_TARGETS) :
    ((resetTargets E g).targets t).active = true ∧ ((resetTargets E g).targets t).radius = 15 ∧
      (180 : K) ≤ ((resetTargets E g).targets t).x ∧ ((resetTargets E g).targets t).x ≤ 620 ∧
      (180 : K) ≤ ((resetTargets E g).targets t).y ∧ ((resetTargets E g).targets t).y ≤ 420 := by
  rw [resetTargets_eq]
  have hx := randFloat_mem E 180 620 (g.randState (2 * t.val)) (by norm_num) (hrand _)
  have hy := randFloat_mem E 180 420 (g.randState (2 * t.val + 1)) (by norm_num) (hrand _)
  exact ⟨rfl, rfl, hx.1, hx.2, hy.1, hy.2⟩

/-! ### The countdown -/

omit [LinearOrderedField K] in
theorem timerCallback_eq (g : Game K) :
    timerCallback g =
      if g.gameOver = false ∧ 0 < g.timeLeft then
        (if g.timeLeft - 1 ≤ 0 then { g with timeLeft := 0, gameOver := true }
        else { g with timeLeft := g.timeLeft - 1 })
      else g := by
  simp only [timerCallback]
  by_cases h1 : g.gameOver = false <;> by_cases h2 : 0 < g.timeLeft <;> simp [h1, h2]

omit [LinearOrderedField K] in
/-- One countdown second, in terms of the number `c` of seconds counted so far. -/
theorem timerCallback_count (g : Game K) (c : Nat)
    (h1 : g.timeLeft = max (60 - (c : Int)) 0) (h2 : g.gameOver = true ↔ 60 ≤ c) :
    (timerCallback g).timeLeft = max (60 - ((c + 1 : Nat) : Int)) 0 ∧
      ((timerCallback g).gameOver = true ↔ 60 ≤ c + 1) := by
  rw [timerCallback_eq]
  by_cases hc : 60 ≤ c
  · have hgo : g.gameOver = true := h2.2 hc
    simp only [hgo, Bool.true_eq_false, false_and, if_false]
    constructor
    · rw [h1]; omega
    · simp only [hgo, true_iff]; omega
  · have hgo : g.gameOver = false := by
      cases h : g.gameOver
      · rfl
      · exact absurd (h2.1 h) hc
    have hpos : 0 < g.timeLeft := by rw [h1]; omega
    simp only [hgo, hpos, and_self, if_true]
    split_ifs with hz
    · constructor
      · show (0 : Int) = _
        rw [h1] at hz; omega
      · simp only [true_iff]
        rw [h1] at hz; omega
    · constructor
      · show g.timeLeft - 1 = _
        rw [h1] at hz ⊢; omega
      · refine ⟨fun h => h.elim, fun h => ?_⟩
        rw [h1] at hz; omega

omit [LinearOrderedField K] in
theorem timerCallback_mono (g : Game K) :
    (timerCallback g).timeLeft ≤ g.timeLeft ∧
      (0 ≤ g.timeLeft → 0 ≤ (timerCallback g).timeLeft) ∧
      (g.gameOver = true → (timerCallback g).gameOver = true) := by
  rw [timerCallback_eq]
  split_ifs with h1 h2
  · exact ⟨by show (0 : Int) ≤ _; omega, fun _ => le_refl _, fun _ => rfl⟩
  · refine ⟨by show g.timeLeft - 1 ≤ _; omega, fun _ => by show 0 ≤ g.timeLeft - 1; omega, ?_⟩
    intro h
    rw [h1.1] at h
    exact absurd h Bool.false_ne_true
  · exact ⟨le_refl _, id, id⟩

/-- Every key press is either the restart command or leaves the clock and the game-over flag
alone. -/
theorem handleKeyboard_clock (E : Env K) (key : Nat) (g g' : Game K)
    (h : handleKeyboard E key g = some g') :
    ((key = 110 ∨ key = 78) ∧ g' = restartGame E g) ∨
      (g'.timeLeft = g.timeLeft ∧ g'.gameOver = g.gameOver) := by
  unfold handleKeyboard at h
  split_ifs at h with h0 h1 h2 h3 h4 h5 h6 h7 h8 <;>
    simp only [Option.some.injEq] at h <;> subst h
  all_goals first
    | exact Or.inr ⟨rfl, rfl⟩
    | exact Or.inr ⟨(spawnBullet_frame E g).2.2.2.1, (spawnBullet_frame E g).2.2.2.2.1⟩
    | exact Or.inl ⟨h7, rfl⟩

/-- Every event other than the restart command and the countdown second leaves the clock and
the game-over flag alone. -/
theorem step_clock (E : Env K) (e : Event) (g g' : Game K) (hr : isRestart e = false)
    (h : step E e g = some g') :
    (e = Event.second ∧ g' = timerCallback g) ∨
      (g'.timeLeft = g.timeLeft ∧ g'.gameOver = g.gameOver) := by
  cases e with
  | frame =>
    simp only [step, Option.some.injEq] at h
    subst h
    exact Or.inr ⟨updateGame_timeLeft E g, updateGame_gameOver E g⟩
  | second =>
    simp only [step, Option.some.injEq] at h
    exact Or.inl ⟨rfl, h.symm⟩
  | keyboard key =>
    simp only [step] at h
    rcases handleKeyboard_clock E key g g' h with ⟨hk, -⟩ | hfr
    · simp only [isRestart, Bool.or_eq_false_iff, decide_eq_false_iff_not] at hr
      rcases hk with hk | hk
      · exact absurd hk hr.1
      · exact absurd hk hr.2
    · exact Or.inr hfr
  | special key =>
    simp only [step, Option.some.injEq] at h
    subst h
    right
    unfold handleSpecial
    split_ifs <;> exact ⟨rfl, rfl⟩

/-- The clock along a run without restart, started after `c` seconds of countdown. -/
theorem run_clock (E : Env K) :
    ∀ (evs : List Event) (g g' : Game K) (c : Nat),
      g.timeLeft = max (60 - (c : Int)) 0 → (g.gameOver = true ↔ 60 ≤ c) →
      (∀ e ∈ evs, isRestart e = false) → run E evs g = some g' →
      g'.timeLeft = max (60 - ((c + countSeconds evs : Nat) : Int)) 0 ∧
        (g'.gameOver = true ↔ 60 ≤ c + countSeconds evs) := by
  intro evs
  induction evs with
  | nil =>
    intro g g' c h1 h2 _ h
    simp only [run, Option.some.injEq] at h
    subst h
    exact ⟨by simpa [countSeconds] using h1, by simpa [countSeconds] using h2⟩
  | cons e rest ih =>
    intro g g' c h1 h2 hnr h
    simp only [run] at h
    cases hs : step E e g with
    | none => simp [hs] at h
    | some g1 =>
      rw [hs] at h
      have hrest : ∀ e' ∈ rest, isRestart e' = false :=
        fun e' he' => hnr e' (List.mem_cons_of_mem _ he')
      by_cases he : e = Event.second
      · subst he
        simp only [step, Option.some.injEq] at hs
        subst hs
        obtain ⟨k1, k2⟩ := timerCallback_count g c h1 h2
        have := ih (timerCallback g) g' (c + 1) k1 k2 hrest h
        simpa [countSeconds, Nat.add_assoc, Nat.add_comm 1] using this
      · rcases step_clock E e g g1 (hnr e (List.mem_cons_self _ _)) hs with ⟨he', -⟩ | ⟨ht, hgo⟩
        · exact absurd he' he
        · have hcount : countSeconds (e :: rest) = countSeconds rest := by
            cases e with
            | second => exact absurd rfl he
            | frame => rfl
            | keyboard key => rfl
            | special key => rfl
          rw [hcount]
          exact ih g1 g' c (ht ▸ h1) (hgo ▸ h2) hrest h

omit [LinearOrderedField K] in
theorem iterate_timerCallback_clock (g : Game K) (h1 : g.timeLeft = 60)
    (h2 : g.gameOver = false) (n : Nat) :
    (timerCallback^[n] g).timeLeft = max (60 - (n : Int)) 0 ∧
      ((timerCallback^[n] g).gameOver = true ↔ 60 ≤ n) := by
  induction n with
  | zero =>
    simp only [Function.iterate_zero, id_eq, h1, h2]
    constructor
    · norm_num
    · simp
  | succ n ih =>
    rw [Function.iterate_succ_apply']
    exact timerCallback_count _ n ih.1 ih.2

/-- In every event the clock stays within `0..60` and is 0 exactly when the game is over. -/
theorem step_clock_invariant (E : Env K) (e : Event) (g g' : Game K)
    (hg : (0 ≤ g.timeLeft ∧ g.timeLeft ≤ 60) ∧ (g.gameOver = true ↔ g.timeLeft = 0))
    (h : step E e g = some g') :
    (0 ≤ g'.timeLeft ∧ g'.timeLeft ≤ 60) ∧ (g'.gameOver = true ↔ g'.timeLeft = 0) := by
  have htimer : (0 ≤ (timerCallback g).timeLeft ∧ (timerCallback g).timeLeft ≤ 60) ∧
      ((timerCallback g).gameOver = true ↔ (timerCallback g).timeLeft = 0) := by
    obtain ⟨⟨h0, h60⟩, hiff⟩ := hg
    rw [timerCallback_eq]
    split_ifs with h1 h2
    · exact ⟨⟨le_refl _, by norm_num⟩, by simp⟩
    · refine ⟨⟨by show 0 ≤ g.timeLeft - 1; omega, by show g.timeLeft - 1 ≤ 60; omega⟩, ?_⟩
      show g.gameOver = true ↔ g.timeLeft - 1 = 0
      rw [h1.1]
      constructor
      · intro hf; exact absurd hf Bool.false_ne_true
      · intro hz; omega
    · exact ⟨⟨h0, h60⟩, hiff⟩
  by_cases hr : isRestart e = true
  · cases e with
    | keyboard key =>
      simp only [step] at h
      rcases handleKeyboard_clock E key g g' h with ⟨-, hg'⟩ | ⟨ht, hgo⟩
      · subst hg'
        rw [restartGame_eq]
        exact ⟨⟨by norm_num, le_refl _⟩, by simp⟩
      · rw [ht, hgo]; exact hg
    | frame => simp [isRestart] at hr
    | second => simp [isRestart] at hr
    | special key => simp [isRestart] at hr
  · rcases step_clock E e g g' (by simpa using hr) h with ⟨-, hg'⟩ | ⟨ht, hgo⟩
    · subst hg'
      exact htimer
    · rw [ht, hgo]; exact hg

/-! ### The slot search of `spawnBullet` -/

omit [LinearOrderedField K] in
theorem firstInactive_none (bs : Fin MAX_BULLETS → Bullet K) (l : List (Fin MAX_BULLETS))
    (h : ∀ i ∈ l, (bs i).active = true) : firstInactive bs l = none := by
  induction l with
  | nil => rfl
  | cons i rest ih =>
    unfold firstInactive
    simp [h i (List.mem_cons_self _ _), ih (fun j hj => h j (List.mem_cons_of_mem _ hj))]

omit [LinearOrderedField K] in
/-- The search returns the lowest-indexed inactive slot. -/
theorem firstInactive_some (bs : Fin MAX_BULLETS → Bullet K) (i : Fin MAX_BULLETS)
    (l : List (Fin MAX_BULLETS)) (hl : l.Pairwise (· < ·)) (hi : i ∈ l)
    (hfree : (bs i).active = false) (hlow : ∀ j, j < i → (bs j).active = true) :
    firstInactive bs l = some i := by
  induction l with
  | nil => simp at hi
  | cons a rest ih =>
    rw [List.pairwise_cons] at hl
    unfold firstInactive
    rcases List.mem_cons.1 hi with rfl | hmem
    · simp [hfree]
    · simp [hlow a (hl.1 i hmem), ih hl.2 hmem]

/-- The state after a fire request that found slot `i`. -/
theorem spawnBullet_eq (E : Env K) (g : Game K) (i : Fin MAX_BULLETS)
    (hplay : g.gameOver = false) (hfree : (g.bullets i).active = false)
    (hlow : ∀ j, j < i → (g.bullets j).active = true) :
    spawnBullet E g =
      { g with
        bullets := Function.update g.bullets i
          { x := g.player.x + 40 * E.sin (g.player.angle * E.M_PI / 180)
            y := g.player.y - 40 * E.cos (g.player.angle * E.M_PI / 180)
            vx := 8 * E.sin (g.player.angle * E.M_PI / 180)
            vy := -8 * E.cos (g.player.angle * E.M_PI / 180)
            active := true } } := by
  have hfind := firstInactive_some g.bullets i _ (List.pairwise_lt_finRange _)
    (List.mem_finRange i) hfree hlow
  have hb : (⟨g.player.x + E.sin (g.player.angle * E.M_PI / 180) * 40,
      g.player.y + -E.cos (g.player.angle * E.M_PI / 180) * 40,
      E.sin (g.player.angle * E.M_PI / 180) * 8,
      -E.cos (g.player.angle * E.M_PI / 180) * 8, true⟩ : Bullet K) =
      ⟨g.player.x + 40 * E.sin (g.player.angle * E.M_PI / 180),
        g.player.y - 40 * E.cos (g.player.angle * E.M_PI / 180),
        8 * E.sin (g.player.angle * E.M_PI / 180),
        -8 * E.cos (g.player.angle * E.M_PI / 180), true⟩ := by
    congr 1 <;> ring
  simp only [spawnBullet, hplay, Bool.false_eq_true, if_false, hfind, hb]

/-! ### A bullet that is inactive does not influence the collision block -/

omit [LinearOrderedField K] in
theorem applyHit_agreeOff (i : Fin MAX_BULLETS) (g g' : Game K) (h : agreeOff i g g')
    (t : Fin NUM_TARGETS) (b : Fin MAX_BULLETS) (hb : b ≠ i) :
    agreeOff i (applyHit g t b) (applyHit g' t b) := by
  obtain ⟨hT, hS, hR, hB, h1, h2⟩ := h
  refine ⟨?_, ?_, hR, ?_, ?_, ?_⟩
  · simp only [applyHit, hT]
  · simp only [applyHit, hS]
  · intro b' hb'
    by_cases hbb : b' = b
    · subst hbb
      simp [applyHit, hB b' hb']
    · simp [applyHit, Function.update_noteq hbb, hB b' hb']
  · simp [applyHit, Function.update_noteq (Ne.symm hb), h1]
  · simp [applyHit, Function.update_noteq (Ne.symm hb), h2]

theorem collideBullets_agreeOff (i : Fin MAX_BULLETS) (t : Fin NUM_TARGETS) (g g' : Game K)
    (h : agreeOff i g g') (l : List (Fin MAX_BULLETS)) :
    agreeOff i (collideBullets t g l) (collideBullets t g' l) := by
  induction l with
  | nil => exact h
  | cons b rest ih =>
    unfold collideBullets
    by_cases hb : b = i
    · subst hb
      simp only [h.2.2.2.2.1, h.2.2.2.2.2, Bool.not_false, if_true]
      exact ih
    · rw [← h.2.2.2.1 b hb, ← h.1]
      split_ifs
      · exact ih
      · exact applyHit_agreeOff i g g' h t b hb
      · exact ih

theorem collideTarget_agreeOff (i : Fin MAX_BULLETS) (g g' : Game K) (h : agreeOff i g g')
    (t : Fin NUM_TARGETS) : agreeOff i (collideTarget g t) (collideTarget g' t) := by
  unfold collideTarget
  rw [← h.1]
  split_ifs
  · exact h
  · exact collideBullets_agreeOff i t g g' h _

theorem collisionPhase_agreeOff (i : Fin MAX_BULLETS) (g g' : Game K) (h : agreeOff i g g') :
    agreeOff i (collisionPhase g) (collisionPhase g') := by
  unfold collisionPhase
  generalize List.finRange NUM_TARGETS = l
  induction l generalizing g g' with
  | nil => exact h
  | cons t rest ih =>
    rw [List.foldl_cons, List.foldl_cons]
    exact ih _ _ (collideTarget_agreeOff i g g' h t)

theorem respawnCheck_agreeOff (E : Env K) (i : Fin MAX_BULLETS) (g g' : Game K)
    (h : agreeOff i g g') : agreeOff i (respawnCheck E g) (respawnCheck E g') := by
  obtain ⟨hT, hS, hR, hB, h1, h2⟩ := h
  unfold respawnCheck
  rw [← hT]
  split_ifs
  · rw [resetTargets_eq, resetTargets_eq]
    exact ⟨by simp only [hR], hS, by simp only [hR], hB, h1, h2⟩
  · exact ⟨hT, hS, hR, hB, h1, h2⟩

/-! ### What the collision block can do to a bullet and to a target -/

/-- The collision block changes nothing but active flags, and only from active to inactive. -/
theorem foldl_collideTarget_data (l : List (Fin NUM_TARGETS)) (g : Game K) :
    (∀ b, (l.foldl collideTarget g).bullets b = g.bullets b ∨
      (l.foldl collideTarget g).bullets b = { g.bullets b with active := false }) ∧
    (∀ t, (l.foldl collideTarget g).targets t = g.targets t ∨
      (l.foldl collideTarget g).targets t = { g.targets t with active := false }) := by
  refine foldl_collideTarget_induction
    (fun g' => (∀ b, g'.bullets b = g.bullets b ∨
        g'.bullets b = { g.bullets b with active := false }) ∧
      (∀ t, g'.targets t = g.targets t ∨ g'.targets t = { g.targets t with active := false }))
    ?_ l g ⟨fun _ => Or.inl rfl, fun _ => Or.inl rfl⟩
  rintro g' t b ⟨hB, hT⟩ _ _ _
  constructor
  · intro b'
    by_cases hbb : b' = b
    · subst hbb
      right
      rcases hB b' with h | h <;> simp [applyHit, h]
    · simpa [applyHit, Function.update_noteq hbb] using hB b'
  · intro t'
    by_cases htt : t' = t
    · subst htt
      right
      rcases hT t' with h | h <;> simp [applyHit, h]
    · simpa [applyHit, Function.update_noteq htt] using hT t'

theorem collisionPhase_bullet (g : Game K) (b : Fin MAX_BULLETS) :
    (collisionPhase g).bullets b = g.bullets b ∨
      (collisionPhase g).bullets b = { g.bullets b with active := false } :=
  (foldl_collideTarget_data _ g).1 b

theorem collisionPhase_target (g : Game K) (t : Fin NUM_TARGETS) :
    (collisionPhase g).targets t = g.targets t ∨
      (collisionPhase g).targets t = { g.targets t with active := false } :=
  (foldl_collideTarget_data _ g).2 t

theorem collisionPhase_bullet_data (g : Game K) (b : Fin MAX_BULLETS) :
    ((collisionPhase g).bullets b).x = (g.bullets b).x ∧
      ((collisionPhase g).bullets b).y = (g.bullets b).y ∧
      ((collisionPhase g).bullets b).vx = (g.bullets b).vx ∧
      ((collisionPhase g).bullets b).vy = (g.bullets b).vy ∧
      (((collisionPhase g).bullets b).active = true → (g.bullets b).active = true) ∧
      ((g.bullets b).active = false → (collisionPhase g).bullets b = g.bullets b) := by
  rcases collisionPhase_bullet g b with h | h <;> rw [h]
  · exact ⟨rfl, rfl, rfl, rfl, id, fun _ => rfl⟩
  · refine ⟨rfl, rfl, rfl, rfl, fun h' => absurd h' Bool.false_ne_true, fun h' => ?_⟩
    rw [← h']

theorem collisionPhase_target_data (g : Game K) (t : Fin NUM_TARGETS) :
    ((collisionPhase g).targets t).x = (g.targets t).x ∧
      ((collisionPhase g).targets t).y = (g.targets t).y ∧
      ((collisionPhase g).targets t).radius = (g.targets t).radius := by
  rcases collisionPhase_target g t with h | h <;> rw [h] <;> exact ⟨rfl, rfl, rfl⟩

/-- Every hit uses up one active bullet: the score and the number of active bullets add up
to the same number before and after the collision block. -/
theorem foldl_collideTarget_bullets (l : List (Fin NUM_TARGETS)) (g : Game K) :
    (l.foldl collideTarget g).score + (activeBullets (l.foldl collideTarget g).bullets : Int)
      = g.score + (activeBullets g.bullets : Int) := by
  refine foldl_collideTarget_induction
    (fun g' => g'.score + (activeBullets g'.bullets : Int)
      = g.score + (activeBullets g.bullets : Int)) ?_ l g rfl
  intro g' t b hP _ hb _
  have hset : (Finset.univ.filter fun b' => ((applyHit g' t b).bullets b').active = true) =
      (Finset.univ.filter fun b' => (g'.bullets b').active = true).erase b := by
    ext b'
    by_cases hbb : b' = b
    · subst hbb
      simp [applyHit]
    · simp [applyHit, Function.update_noteq hbb, hbb]
  have hmem : b ∈ Finset.univ.filter fun b' => (g'.bullets b').active = true := by
    simp [hb]
  have hpos : 0 < (Finset.univ.filter fun b' => (g'.bullets b').active = true).card :=
    Finset.card_pos.2 ⟨b, hmem⟩
  have hcard : activeBullets (applyHit g' t b).bullets + 1 = activeBullets g'.bullets := by
    unfold activeBullets
    rw [hset, Finset.card_erase_of_mem hmem]
    omega
  have hscore : (applyHit g' t b).score = g'.score + 1 := rfl
  rw [hscore, ← hP, ← hcard]
  push_cast
  ring

theorem moveBullets_activeBullets_le (E : Env K) (g : Game K) :
    activeBullets (motionPhase E g).bullets ≤ activeBullets g.bullets := by
  unfold activeBullets
  apply Finset.card_le_card
  intro b hb
  simp only [Finset.mem_filter, Finset.mem_univ, true_and] at hb ⊢
  rw [motionPhase_bullets] at hb
  exact moveBullet_active_imp _ hb

theorem hitsOfTick_le (E : Env K) (g : Game K) :
    hitsOfTick E g ≤ 5 ∧ hitsOfTick E g ≤ activeBullets (motionPhase E g).bullets ∧
      hitsOfTick E g ≤ activeBullets g.bullets ∧
      (hitsOfTick E g : Int) + (activeBullets (collisionPhase (motionPhase E g)).bullets : Int)
        = (activeBullets (motionPhase E g).bullets : Int) := by
  have h1 : hitsOfTick E g ≤ 5 := by
    unfold hitsOfTick
    exact (Finset.card_le_univ _).trans (by simp)
  have h2 := foldl_collideTarget_bullets (List.finRange NUM_TARGETS) (motionPhase E g)
  have h3 := collisionPhase_score (motionPhase E g)
  have h4 : (hitsOfTick E g : Int) = (collisionPhase (motionPhase E g)).score
      - (motionPhase E g).score := by
    rw [h3]
    unfold hitsOfTick
    simp only [(motionPhase_frame E g).1]
    ring
  have h5 : (hitsOfTick E g : Int)
      + (activeBullets (collisionPhase (motionPhase E g)).bullets : Int)
      = (activeBullets (motionPhase E g).bullets : Int) := by
    rw [h4]
    unfold collisionPhase
    linarith
  have h6 := moveBullets_activeBullets_le E g
  refine ⟨h1, ?_, ?_, h5⟩ <;> omega

/-! ### Targets and the random stream along a run -/

/-- A key press either restarts the game or leaves the targets and the generator alone. -/
theorem handleKeyboard_targets (E : Env K) (key : Nat) (g g' : Game K)
    (h : handleKeyboard E key g = some g') :
    g' = restartGame E g ∨ (g'.targets = g.targets ∧ g'.randState = g.randState) := by
  unfold handleKeyboard at h
  split_ifs at h <;> simp only [Option.some.injEq] at h <;> subst h
  all_goals first
    | exact Or.inr ⟨rfl, rfl⟩
    | exact Or.inr ⟨(spawnBullet_frame E g).2.1, (spawnBullet_frame E g).2.2.2.2.2.2.2⟩
    | exact Or.inl rfl

/-- Every event is a frame tick, a restart, or leaves the targets and the generator alone. -/
theorem step_targets (E : Env K) (e : Event) (g g' : Game K) (h : step E e g = some g') :
    g' = updateGame E g ∨ g' = restartGame E g ∨
      (g'.targets = g.targets ∧ g'.randState = g.randState) := by
  cases e with
  | frame =>
    simp only [step, Option.some.injEq] at h
    exact Or.inl h.symm
  | second =>
    simp only [step, Option.some.injEq] at h
    subst h
    refine Or.inr (Or.inr ?_)
    rw [timerCallback_eq]
    split_ifs <;> exact ⟨rfl, rfl⟩
  | keyboard key =>
    exact Or.inr (handleKeyboard_targets E key g g' h)
  | special key =>
    simp only [step, Option.some.injEq] at h
    subst h
    refine Or.inr (Or.inr ?_)
    unfold handleSpecial
    split_ifs <;> exact ⟨rfl, rfl⟩

/-- The end of a tick: either some target survived the collision block and the wave check
changes nothing, or none did and the wave check activates all five. -/
theorem updateGame_wave (E : Env K) (g : Game K) (hplay : g.gameOver = false) :
    ((∃ t, ((collisionPhase (motionPhase E g)).targets t).active = true) ∧
        updateGame E g = collisionPhase (motionPhase E g)) ∨
      ((∀ t, ((collisionPhase (motionPhase E g)).targets t).active = false) ∧
        updateGame E g = resetTargets E (collisionPhase (motionPhase E g)) ∧
        ∀ t, ((updateGame E g).targets t).active = true) := by
  rw [updateGame_playing E g hplay]
  by_cases h : ∃ t, ((collisionPhase (motionPhase E g)).targets t).active = true
  · obtain ⟨t, ht⟩ := h
    exact Or.inl ⟨⟨t, ht⟩, respawnCheck_of_active E _ t ht⟩
  · have hnone : ∀ t, ((collisionPhase (motionPhase E g)).targets t).active = false := by
      intro t
      by_contra hne
      exact h ⟨t, by simpa using hne⟩
    refine Or.inr ⟨hnone, respawnCheck_of_none E _ hnone, fun t => ?_⟩
    rw [respawnCheck_of_none E _ hnone, resetTargets_eq]

theorem step_some_active (E : Env K) (e : Event) (g g' : Game K)
    (hg : ∃ t, (g.targets t).active = true) (h : step E e g = some g') :
    ∃ t, (g'.targets t).active = true := by
  rcases step_targets E e g g' h with rfl | rfl | ⟨hT, -⟩
  · by_cases hgo : g.gameOver = true
    · simpa [updateGame, hgo] using hg
    · rcases updateGame_wave E g (by simpa using hgo) with ⟨⟨t, ht⟩, heq⟩ | ⟨-, -, hall⟩
      · exact ⟨t, by rw [heq]; exact ht⟩
      · exact ⟨0, hall 0⟩
  · exact ⟨0, by rw [restartGame_eq]⟩
  · rw [hT]; exact hg

/-! ### Bullets through a tick and through repeated ticks -/

/-- A bullet that is active when a Playing tick starts: where it is afterwards. -/
theorem updateGame_bullet_active (E : Env K) (g : Game K) (b : Fin MAX_BULLETS)
    (hplay : g.gameOver = false) (hb : (g.bullets b).active = true) :
    ((updateGame E g).bullets b).x = (g.bullets b).x + (g.bullets b).vx ∧
      ((updateGame E g).bullets b).y = (g.bullets b).y + (g.bullets b).vy ∧
      ((updateGame E g).bullets b).vx = (g.bullets b).vx ∧
      ((updateGame E g).bullets b).vy = (g.bullets b).vy ∧
      (((updateGame E g).bullets b).active = true →
        ((140 : K) ≤ (g.bullets b).x + (g.bullets b).vx ∧
          (g.bullets b).x + (g.bullets b).vx ≤ 660 ∧
          (140 : K) ≤ (g.bullets b).y + (g.bullets b).vy ∧
          (g.bullets b).y + (g.bullets b).vy ≤ 460)) := by
  obtain ⟨c1, c2, c3, c4, c5, -⟩ := collisionPhase_bullet_data (motionPhase E g) b
  obtain ⟨m1, m2, m3, m4, m5⟩ := moveBullet_active (g.bullets b) hb
  rw [updateGame_bullets E g hplay]
  rw [motionPhase_bullets] at c1 c2 c3 c4 c5
  exact ⟨c1.trans m1, c2.trans m2, c3.trans m3, c4.trans m4, fun h => m5.1 (c5 h)⟩

/-- A bullet that is inactive when a tick starts is left as it is. -/
theorem updateGame_bullet_inactive (E : Env K) (g : Game K) (b : Fin MAX_BULLETS)
    (hb : (g.bullets b).active = false) : (updateGame E g).bullets b = g.bullets b := by
  by_cases hgo : g.gameOver = true
  · simp [updateGame, hgo]
  · rw [updateGame_bullets E g (by simpa using hgo)]
    have hm : (motionPhase E g).bullets b = g.bullets b := by
      rw [motionPhase_bullets, moveBullet_inactive _ hb]
    rw [(collisionPhase_bullet_data (motionPhase E g) b).2.2.2.2.2 (by rw [hm]; exact hb), hm]

theorem updateGame_bullet_active_imp (E : Env K) (g : Game K) (b : Fin MAX_BULLETS)
    (h : ((updateGame E g).bullets b).active = true) : (g.bullets b).active = true := by
  by_contra hb
  rw [updateGame_bullet_inactive E g b (by simpa using hb)] at h
  exact hb h

theorem updateGame_bullet_velocity (E : Env K) (g : Game K) (b : Fin MAX_BULLETS) :
    ((updateGame E g).bullets b).vx = (g.bullets b).vx ∧
      ((updateGame E g).bullets b).vy = (g.bullets b).vy := by
  by_cases hgo : g.gameOver = true
  · simp [updateGame, hgo]
  · by_cases hb : (g.bullets b).active = true
    · obtain ⟨-, -, h3, h4, -⟩ := updateGame_bullet_active E g b (by simpa using hgo) hb
      exact ⟨h3, h4⟩
    · rw [updateGame_bullet_inactive E g b (by simpa using hb)]
      exact ⟨rfl, rfl⟩

theorem iterate_updateGame_gameOver (E : Env K) (g : Game K) (k : Nat) :
    ((updateGame E)^[k] g).gameOver = g.gameOver := by
  induction k with
  | zero => rfl
  | succ k ih => rw [Function.iterate_succ_apply', updateGame_gameOver, ih]

/-- Frame ticks never activate a bullet. -/
theorem iterate_updateGame_active_imp (E : Env K) (g : Game K) (b : Fin MAX_BULLETS)
    (k m : Nat) (h : (((updateGame E)^[k + m] g).bullets b).active = true) :
    (((updateGame E)^[k] g).bullets b).active = true := by
  induction m with
  | zero => exact h
  | succ m ih =>
    apply ih
    rw [← Nat.add_assoc, Function.iterate_succ_apply'] at h
    exact updateGame_bullet_active_imp E _ b h

/-- A bullet still active after `k` frame ticks of a Playing game has flown `k` steps of its
velocity and is inside the rectangle. -/
theorem iterate_updateGame_flight (E : Env K) (g : Game K) (b : Fin MAX_BULLETS)
    (hplay : g.gameOver = false) (k : Nat)
    (h : (((updateGame E)^[k] g).bullets b).active = true) :
    (((updateGame E)^[k] g).bullets b).x = (g.bullets b).x + (k : K) * (g.bullets b).vx ∧
      (((updateGame E)^[k] g).bullets b).y = (g.bullets b).y + (k : K) * (g.bullets b).vy ∧
      (((updateGame E)^[k] g).bullets b).vx = (g.bullets b).vx ∧
      (((updateGame E)^[k] g).bullets b).vy = (g.bullets b).vy ∧
      (0 < k → (140 : K) ≤ (g.bullets b).y + (k : K) * (g.bullets b).vy ∧
        (g.bullets b).y + (k : K) * (g.bullets b).vy ≤ 460 ∧
        (140 : K) ≤ (g.bullets b).x + (k : K) * (g.bullets b).vx ∧
        (g.bullets b).x + (k : K) * (g.bullets b).vx ≤ 660) := by
  induction k with
  | zero =>
    simp only [Function.iterate_zero, id_eq, Nat.cast_zero, zero_mul, add_zero, true_and]
    exact fun h0 => absurd h0 (lt_irrefl 0)
  | succ k ih =>
    rw [Function.iterate_succ_apply'] at h ⊢
    have hprev := updateGame_bullet_active_imp E _ b h
    obtain ⟨i1, i2, i3, i4, -⟩ := ih hprev
    have hp : ((updateGame E)^[k] g).gameOver = false := by
      rw [iterate_updateGame_gameOver]; exact hplay
    obtain ⟨u1, u2, u3, u4, u5⟩ := updateGame_bullet_active E _ b hp hprev
    have hx : ((updateGame E ((updateGame E)^[k] g)).bullets b).x
        = (g.bullets b).x + ((k + 1 : Nat) : K) * (g.bullets b).vx := by
      rw [u1, i1, i3]; push_cast; ring
    have hy : ((updateGame E ((updateGame E)^[k] g)).bullets b).y
        = (g.bullets b).y + ((k + 1 : Nat) : K) * (g.bullets b).vy := by
      rw [u2, i2, i4]; push_cast; ring
    refine ⟨hx, hy, u3.trans i3, u4.trans i4, fun _ => ?_⟩
    obtain ⟨b1, b2, b3, b4⟩ := u5 h
    rw [← u1, hx] at b1 b2
    rw [← u2, hy] at b3 b4
    exact ⟨b3, b4, b1, b2⟩

/-- A bullet that is within the hit threshold of no active target is left alone by the
collision block. -/
theorem collisionPhase_bullet_survives (g : Game K) (i : Fin MAX_BULLETS)
    (hmiss : ∀ t, (g.targets t).active = true → hitTest (g.bullets i) (g.targets t) = false) :
    (collisionPhase g).bullets i = g.bullets i := by
  have h := foldl_collideTarget_induction
    (fun g' => g'.bullets i = g.bullets i ∧
      ∀ t, g'.targets t = g.targets t ∨ g'.targets t = { g.targets t with active := false })
    ?_ (List.finRange NUM_TARGETS) g ⟨rfl, fun _ => Or.inl rfl⟩
  · exact h.1
  · rintro g' t b ⟨hB, hT⟩ ht hb hhit
    have htt : g'.targets t = g.targets t := by
      rcases hT t with h | h
      · exact h
      · rw [h] at ht
        exact absurd ht Bool.false_ne_true
    have hne : i ≠ b := by
      rintro rfl
      rw [hB, htt] at hhit
      rw [htt] at ht
      rw [hmiss t ht] at hhit
      exact Bool.false_ne_true hhit
    constructor
    · simp [applyHit, Function.update_noteq hne, hB]
    · intro t'
      by_cases h' : t' = t
      · subst h'
        right
        rcases hT t' with h | h <;> simp [applyHit, h]
      · simpa [applyHit, Function.update_noteq h'] using hT t'

omit [LinearOrderedField K] in
theorem bullet_eq_mk (b : Bullet K) (x y vx vy : K) (a : Bool) (hx : b.x = x) (hy : b.y = y)
    (hvx : b.vx = vx) (hvy : b.vy = vy) (ha : b.active = a) :
    b = { x := x, y := y, vx := vx, vy := vy, active := a } := by
  cases b
  simp only at hx hy hvx hvy ha
  simp only [hx, hy, hvx, hvy, ha]

/-- The flight of a bullet spawned at `(400, 230)` with velocity `(0, 8)`: while it is
active after `k` frame ticks it is at `(400, 230 + 8 k)` and `k` is at most 28. -/
theorem flight_from_start (E : Env K) (g : Game K) (i : Fin MAX_BULLETS)
    (hplay : g.gameOver = false)
    (hb : g.bullets i = { x := 400, y := 230, vx := 0, vy := 8, active := true }) (k : Nat)
    (h : (((updateGame E)^[k] g).bullets i).active = true) :
    k ≤ 28 ∧ ((updateGame E)^[k] g).bullets i =
      { x := 400, y := 230 + 8 * (k : K), vx := 0, vy := 8, active := true } := by
  obtain ⟨h1, h2, h3, h4, h5⟩ := iterate_updateGame_flight E g i hplay k h
  rw [hb] at h1 h2 h3 h4 h5
  simp only [mul_zero, add_zero] at h1 h5
  constructor
  · by_contra hk
    have hk' : 29 ≤ k := by omega
    have hc : ((29 : Nat) : K) ≤ (k : K) := Nat.cast_le.2 hk'
    have := (h5 (by omega)).2.1
    push_cast at hc
    linarith
  · exact bullet_eq_mk _ _ _ _ _ _ h1 (by rw [h2]; ring) h3 h4 h

/-! ### Targets keep clear of the walls -/

/-- Every point within the hit threshold of a target made by `resetTargets` is strictly inside
the inner rectangle. -/
theorem inMargin_threshold (t : Target K) (ht : inMargin t) (px py : K)
    (h : (px - t.x) ^ 2 + (py - t.y) ^ 2 ≤ (t.radius + 4) ^ 2) :
    140 < px ∧ px < 660 ∧ 140 < py ∧ py < 460 := by
  obtain ⟨hr, hx0, hx1, hy0, hy1⟩ := ht
  rw [hr] at h
  have h19 : ((15 : K) + 4) ^ 2 = 19 ^ 2 := by norm_num
  rw [h19] at h
  have hsx : (px - t.x) ^ 2 ≤ 19 ^ 2 := by linarith [sq_nonneg (py - t.y)]
  have hsy : (py - t.y) ^ 2 ≤ 19 ^ 2 := by linarith [sq_nonneg (px - t.x)]
  have hax := abs_le_of_sq_le_sq' (show (px - t.x) ^ 2 ≤ (19 : K) ^ 2 by linarith) (by norm_num)
  have hay := abs_le_of_sq_le_sq' (show (py - t.y) ^ 2 ≤ (19 : K) ^ 2 by linarith) (by norm_num)
  exact ⟨by linarith [hax.1], by linarith [hax.2], by linarith [hay.1], by linarith [hay.2]⟩

/-- A bullet outside the inner rectangle fails the hit test against such a target. -/
theorem hitTest_out_of_bounds (b : Bullet K) (t : Target K) (ht : inMargin t)
    (hout : b.x < 140 ∨ b.x > 660 ∨ b.y < 140 ∨ b.y > 460) : hitTest b t = false := by
  rw [← Bool.not_eq_true, hitTest_iff]
  intro h
  obtain ⟨h1, h2, h3, h4⟩ := inMargin_threshold t ht b.x b.y h
  rcases hout with h' | h' | h' | h'
  · exact absurd h1 (not_lt.2 h'.le)
  · exact absurd h2 (not_lt.2 h'.le)
  · exact absurd h3 (not_lt.2 h'.le)
  · exact absurd h4 (not_lt.2 h'.le)

theorem moveBullet_eq (b : Bullet K) : moveBullet b = boundsCheck (advanceBullet b) := by
  unfold moveBullet boundsCheck advanceBullet
  by_cases hb : b.active = true
  · simp [hb]
  · simp [hb]

theorem boundsCheck_inactive (b : Bullet K) (hb : b.active = false) : boundsCheck b = b := by
  simp [boundsCheck, hb]

/-- What the bounds check does to an active bullet. -/
theorem boundsCheck_active (b : Bullet K) (hb : b.active = true) :
    ((b.x < 140 ∨ b.x > 660 ∨ b.y < 140 ∨ b.y > 460) ∧
        boundsCheck b = { b with active := false }) ∨
      (¬(b.x < 140 ∨ b.x > 660 ∨ b.y < 140 ∨ b.y > 460) ∧ boundsCheck b = b) := by
  simp only [boundsCheck, hb, Bool.not_true, Bool.false_eq_true, if_false, INNER_X_MIN_cast,
    INNER_X_MAX_cast, INNER_Y_MIN_cast, INNER_Y_MAX_cast]
  by_cases hc : b.x < 140 ∨ b.x > 660 ∨ b.y < 140 ∨ b.y > 460
  · exact Or.inl ⟨hc, by rw [if_pos hc]⟩
  · exact Or.inr ⟨hc, by rw [if_neg hc]⟩

/-! ### The two orders of the checks give the same tick -/

omit [LinearOrderedField K] in
theorem game_eq_of_fields (a b : Game K) (h1 : a.player = b.player)
    (h2 : a.reflectScene = b.reflectScene) (h3 : a.shearEffect = b.shearEffect)
    (h4 : a.score = b.score) (h5 : a.timeLeft = b.timeLeft) (h6 : a.gameOver = b.gameOver)
    (h7 : a.bullets = b.bullets) (h8 : a.targets = b.targets)
    (h9 : a.randState = b.randState) : a = b := by
  cases a
  cases b
  simp only at h1 h2 h3 h4 h5 h6 h7 h8 h9
  simp only [h1, h2, h3, h4, h5, h6, h7, h8, h9]

theorem applyHit_boundsDeferred (gA gB : Game K) (h : boundsDeferred gA gB)
    (t : Fin NUM_TARGETS) (b : Fin MAX_BULLETS) (hb : gA.bullets b = gB.bullets b) :
    boundsDeferred (applyHit gA t b) (applyHit gB t b) := by
  obtain ⟨h1, h2, h3, h4, h5, h6, h7, h8, hB, hM⟩ := h
  refine ⟨h1, h2, h3, ?_, h5, h6, ?_, h8, ?_, ?_⟩
  · simp only [applyHit, h4]
  · simp only [applyHit, h7]
  · intro b'
    by_cases hbb : b' = b
    · subst hbb
      simp only [applyHit, Function.update_same, hb]
      rw [boundsCheck_inactive _ rfl]
    · simp only [applyHit, Function.update_noteq hbb]
      exact hB b'
  · intro t'
    by_cases htt : t' = t
    · subst htt
      simp only [applyHit, Function.update_same]
      exact hM t'
    · simp only [applyHit, Function.update_noteq htt]
      exact hM t'

theorem collideBullets_boundsDeferred (t : Fin NUM_TARGETS) (gA gB : Game K)
    (h : boundsDeferred gA gB) (l : List (Fin MAX_BULLETS)) :
    boundsDeferred (collideBullets t gA l) (collideBullets t gB l) := by
  induction l with
  | nil => exact h
  | cons b rest ih =>
    have hB := h.2.2.2.2.2.2.2.2.1 b
    have hT : gA.targets = gB.targets := h.2.2.2.2.2.2.1
    unfold collideBullets
    by_cases hb : (gB.bullets b).active = true
    · rcases boundsCheck_active _ hb with ⟨hout, heq⟩ | ⟨-, heq⟩
      · have hA : (gA.bullets b).active = false := by rw [hB, heq]
        have hmiss := hitTest_out_of_bounds (gB.bullets b) (gB.targets t)
          (h.2.2.2.2.2.2.2.2.2 t) hout
        simp only [hA, hb, hmiss, Bool.not_false, Bool.not_true, Bool.false_eq_true, if_true,
          if_false]
        exact ih
      · have hAB : gA.bullets b = gB.bullets b := by rw [hB, heq]
        rw [hAB, hT]
        split_ifs
        · exact ih
        · exact applyHit_boundsDeferred gA gB h t b hAB
        · exact ih
    · have hb' : (gB.bullets b).active = false := by simpa using hb
      have hAB : gA.bullets b = gB.bullets b := by rw [hB, boundsCheck_inactive _ hb']
      rw [hAB]
      simp only [hb', Bool.not_false, if_true]
      exact ih

theorem collisionPhase_boundsDeferred (gA gB : Game K) (h : boundsDeferred gA gB) :
    boundsDeferred (collisionPhase gA) (collisionPhase gB) := by
  unfold collisionPhase
  generalize List.finRange NUM_TARGETS = l
  induction l generalizing gA gB with
  | nil => exact h
  | cons t rest ih =>
    rw [List.foldl_cons, List.foldl_cons]
    apply ih
    unfold collideTarget
    rw [h.2.2.2.2.2.2.1]
    split_ifs
    · exact h
    · exact collideBullets_boundsDeferred t gA gB h _

/-- With targets as `resetTargets` makes them, `updateGame` is the tick with the collision
check first. -/
theorem updateGame_eq_collisionFirst (E : Env K) (g : Game K)
    (hgeo : ∀ t, inMargin (g.targets t)) : updateGame E g = updateGameCollisionFirst E g := by
  by_cases hgo : g.gameOver = true
  · simp [updateGame, updateGameCollisionFirst, hgo]
  · have hplay : g.gameOver = false := by simpa using hgo
    have h0 : boundsDeferred (motionPhase E g)
        ({ g with
          player := movePlayer E g.player
          bullets := forEach advanceBullet g.bullets } : Game K) := by
      refine ⟨rfl, rfl, rfl, rfl, rfl, rfl, rfl, rfl, fun b => ?_, hgeo⟩
      rw [motionPhase_bullets]
      simp only [forEach_apply]
      exact moveBullet_eq _
    obtain ⟨h1, h2, h3, h4, h5, h6, h7, h8, hB, -⟩ := collisionPhase_boundsDeferred _ _ h0
    have heq : collisionPhase (motionPhase E g) =
        { collisionPhase ({ g with
            player := movePlayer E g.player
            bullets := forEach advanceBullet g.bullets } : Game K) with
          bullets := forEach boundsCheck (collisionPhase ({ g with
            player := movePlayer E g.player
            bullets := forEach advanceBullet g.bullets } : Game K)).bullets } := by
      apply game_eq_of_fields
      · exact h1
      · exact h2
      · exact h3
      · exact h4
      · exact h5
      · exact h6
      · funext b
        simp only [forEach_apply]
        exact hB b
      · exact h7
      · exact h8
    rw [updateGame_playing E g hplay, heq]
    simp only [updateGameCollisionFirst, hplay, Bool.false_eq_true, if_false]

/-- The targets are as `resetTargets` makes them, and the generator stays in range, after
every event. -/
theorem step_inMargin (E : Env K) (e : Event) (g g' : Game K)
    (hg : (∀ n, g.randState n ≤ E.RAND_MAX) ∧ ∀ t, inMargin (g.targets t))
    (h : step E e g = some g') :
    (∀ n, g'.randState n ≤ E.RAND_MAX) ∧ ∀ t, inMargin (g'.targets t) := by
  obtain ⟨hR, hM⟩ := hg
  rcases step_targets E e g g' h with rfl | rfl | ⟨hT, hS⟩
  · by_cases hgo : g.gameOver = true
    · simpa [updateGame, hgo] using ⟨hR, hM⟩
    · have hR' : ∀ n, (collisionPhase (motionPhase E g)).randState n ≤ E.RAND_MAX := by
        intro n
        rw [(collisionPhase_frame _).2.2.2.2.2]
        exact hR n
      rcases updateGame_wave E g (by simpa using hgo) with ⟨-, heq⟩ | ⟨-, heq, -⟩
      · rw [heq]
        refine ⟨hR', fun t => ?_⟩
        obtain ⟨d1, d2, d3⟩ := collisionPhase_target_data (motionPhase E g) t
        unfold inMargin
        rw [d1, d2, d3]
        exact hM t
      · rw [heq]
        refine ⟨?_, fun t => (resetTargets_wave E _ hR' t).2⟩
        intro n
        rw [resetTargets_eq]
        exact hR' (n + 10)
  · refine ⟨?_, fun t => ?_⟩
    · intro n
      rw [restartGame_eq]
      exact hR (n + 10)
    · rw [restartGame_eq]
      have hx := randFloat_mem E 180 620 (g.randState (2 * t.val)) (by norm_num) (hR _)
      have hy := randFloat_mem E 180 420 (g.randState (2 * t.val + 1)) (by norm_num) (hR _)
      exact ⟨rfl, hx.1, hx.2, hy.1, hy.2⟩
  · rw [hT, hS]
    exact ⟨hR, hM⟩

theorem reachable_inMargin (E : Env K) (g : Game K) (hg : Reachable E g) :
    (∀ n, g.randState n ≤ E.RAND_MAX) ∧ ∀ t, inMargin (g.targets t) := by
  refine reachable_invariant E
    (fun g => (∀ n, g.randState n ≤ E.RAND_MAX) ∧ ∀ t, inMargin (g.targets t)) ?_
    (step_inMargin E) g hg
  intro seeded hb
  rw [initGame_eq]
  refine ⟨fun n => hb (n + 10), fun t => ?_⟩
  have hx := randFloat_mem E 180 620 (seeded (2 * t.val)) (by norm_num) (hb _)
  have hy := randFloat_mem E 180 420 (seeded (2 * t.val + 1)) (by norm_num) (hb _)
  exact ⟨rfl, hx.1, hx.2, hy.1, hy.2⟩

end Facts

/-! ## The claims -/

section Claims

variable {K : Type} [LinearOrderedField K]

/-- Claim C1. In a state that is not game over, one `updateGame` puts the player inside
`140 ≤ x ≤ 660`, `140 ≤ y ≤ 460`, whatever its position, heading and speed were before;
`initGame` and `restartGame` place the player at `(400, 190)`; and the bound holds in every
state reachable from `initGame`. -/
theorem player_position_bounded (E : Env K) :
    (∀ g : Game K, g.gameOver = false →
      (140 : K) ≤ (updateGame E g).player.x ∧ (updateGame E g).player.x ≤ 660 ∧
        (140 : K) ≤ (updateGame E g).player.y ∧ (updateGame E g).player.y ≤ 460) ∧
    (∀ seeded : Nat → Nat,
      (initGame E seeded).player.x = 400 ∧ (initGame E seeded).player.y = 190) ∧
    (∀ g : Game K, (restartGame E g).player.x = 400 ∧ (restartGame E g).player.y = 190) ∧
    (∀ g : Game K, Reachable E g →
      (140 : K) ≤ g.player.x ∧ g.player.x ≤ 660 ∧ (140 : K) ≤ g.player.y ∧ g.player.y ≤ 460) := by
  refine ⟨?_, ?_, ?_, ?_⟩
  · intro g hg
    rw [updateGame_player E g hg]
    exact movePlayer_inBounds E g.player
  · intro seeded
    rw [initGame_eq]
    exact ⟨rfl, rfl⟩
  · intro g
    rw [restartGame_eq]
    exact ⟨rfl, rfl⟩
  · intro g hg
    refine reachable_invariant E
      (fun g => (140 : K) ≤ g.player.x ∧ g.player.x ≤ 660 ∧ (140 : K) ≤ g.player.y ∧
        g.player.y ≤ 460) ?_ (step_playerInBounds E) g hg
    intro seeded _
    rw [initGame_eq]
    norm_num

/-- Witness for C1: the stray player at `(1000, -50)` is inside the rectangle after one tick,
and the state after `initGame` and one frame is reachable and within bounds. -/
theorem player_position_bounded_witness :
    (strayGame.gameOver = false ∧
      (140 : ℚ) ≤ (updateGame envQ strayGame).player.x ∧
        (updateGame envQ strayGame).player.x ≤ 660 ∧
        (140 : ℚ) ≤ (updateGame envQ strayGame).player.y ∧
        (updateGame envQ strayGame).player.y ≤ 460) ∧
    (Reachable envQ (updateGame envQ (initGame envQ (fun _ => 0))) ∧
      (140 : ℚ) ≤ (updateGame envQ (initGame envQ (fun _ => 0))).player.x ∧
        (updateGame envQ (initGame envQ (fun _ => 0))).player.x ≤ 660 ∧
        (140 : ℚ) ≤ (updateGame envQ (initGame envQ (fun _ => 0))).player.y ∧
        (updateGame envQ (initGame envQ (fun _ => 0))).player.y ≤ 460) :=
  have hr : Reachable envQ (updateGame envQ (initGame envQ (fun _ => 0))) :=
    ⟨fun _ => 0, [Event.frame], fun _ => Nat.zero_le _, rfl⟩
  ⟨⟨rfl, (player_position_bounded envQ).1 strayGame rfl⟩,
    ⟨hr, (player_position_bounded envQ).2.2.2 _ hr⟩⟩

/-- Claim C2. In a state that is not game over, one `updateGame` leaves the player speed in
`[-2, 5]` for every prior speed: above 5 it becomes exactly 5, below -2 it becomes exactly -2,
and a speed already in range is unchanged. -/
theorem player_speed_clamped (E : Env K) (g : Game K) (hg : g.gameOver = false) :
    ((-2 : K) ≤ (updateGame E g).player.speed ∧ (updateGame E g).player.speed ≤ 5) ∧
      (5 < g.player.speed → (updateGame E g).player.speed = 5) ∧
      (g.player.speed < -2 → (updateGame E g).player.speed = -2) ∧
      (-2 ≤ g.player.speed → g.player.speed ≤ 5 →
        (updateGame E g).player.speed = g.player.speed) := by
  rw [updateGame_player E g hg, movePlayer_speed]
  refine ⟨⟨?_, ?_⟩, ?_, ?_, ?_⟩
  · split_ifs <;> linarith
  · split_ifs <;> linarith
  · intro h
    split_ifs <;> first | rfl | linarith
  · intro h
    split_ifs <;> first | rfl | linarith
  · intro h1 h2
    split_ifs <;> first | rfl | linarith

/-- Witness for C2: the stray player has speed 9 and leaves the tick with speed 5. -/
theorem player_speed_clamped_witness :
    strayGame.gameOver = false ∧ (5 : ℚ) < strayGame.player.speed ∧
      (updateGame envQ strayGame).player.speed = 5 :=
  ⟨rfl, by norm_num [strayGame],
    (player_speed_clamped envQ strayGame rfl).2.1 (by norm_num [strayGame])⟩

/-- Claim C3. The hit test of `updateGame` is
`(bx-tx)^2 + (by-ty)^2 <= (radius + 4)^2` on the bullet position after its motion step:
distance 0 and distance exactly 19 from a target of radius 15 are hits, distance 30 is a miss.
In a Playing state whose only active bullet `b0` ends its motion step inside the inner
rectangle: if some active target satisfies the inequality, then after the tick the bullet is
inactive and the score is one higher, and the collision phase deactivates the lowest-indexed
such target and changes no other target; if no active target satisfies it, then after the
tick the bullet is still active and the score is unchanged, the collision phase changes no
target, and every target is unchanged by the whole tick, in every state reachable from
`initGame` and more generally whenever a target is active when the tick starts. -/
theorem hit_test_single_bullet (E : Env K) :
    (∀ (b : Bullet K) (t : Target K),
      hitTest b t = true ↔ (b.x - t.x) ^ 2 + (b.y - t.y) ^ 2 ≤ (t.radius + 4) ^ 2) ∧
    (∀ (vx vy : K) (a a' : Bool),
      hitTest { x := 400, y := 300, vx := vx, vy := vy, active := a }
          ({ x := 400, y := 300, radius := 15, active := a' } : Target K) = true ∧
        hitTest { x := 430, y := 300, vx := vx, vy := vy, active := a }
          ({ x := 400, y := 300, radius := 15, active := a' } : Target K) = false) ∧
    (∀ (b : Bullet K) (t : Target K), t.radius = 15 →
      (b.x - t.x) ^ 2 + (b.y - t.y) ^ 2 = 19 ^ 2 → hitTest b t = true) ∧
    ∀ (g : Game K) (b0 : Fin MAX_BULLETS), g.gameOver = false →
    (∀ b, (g.bullets b).active = true ↔ b = b0) →
    ((140 : K) ≤ (g.bullets b0).x + (g.bullets b0).vx ∧
      (g.bullets b0).x + (g.bullets b0).vx ≤ 660 ∧
      (140 : K) ≤ (g.bullets b0).y + (g.bullets b0).vy ∧
      (g.bullets b0).y + (g.bullets b0).vy ≤ 460) →
    (∀ t0 : Fin NUM_TARGETS,
      ((g.targets t0).active = true ∧
        ((g.bullets b0).x + (g.bullets b0).vx - (g.targets t0).x) ^ 2 +
          ((g.bullets b0).y + (g.bullets b0).vy - (g.targets t0).y) ^ 2
            ≤ ((g.targets t0).radius + 4) ^ 2) →
      (∀ t, t < t0 →
        ¬((g.targets t).active = true ∧
          ((g.bullets b0).x + (g.bullets b0).vx - (g.targets t).x) ^ 2 +
            ((g.bullets b0).y + (g.bullets b0).vy - (g.targets t).y) ^ 2
              ≤ ((g.targets t).radius + 4) ^ 2)) →
      ((updateGame E g).bullets b0).active = false ∧
        ((collisionPhase (motionPhase E g)).targets t0).active = false ∧
        (∀ t, t ≠ t0 → (collisionPhase (motionPhase E g)).targets t = g.targets t) ∧
        (updateGame E g).score = g.score + 1) ∧
    ((∀ t : Fin NUM_TARGETS,
        ¬((g.targets t).active = true ∧
          ((g.bullets b0).x + (g.bullets b0).vx - (g.targets t).x) ^ 2 +
            ((g.bullets b0).y + (g.bullets b0).vy - (g.targets t).y) ^ 2
              ≤ ((g.targets t).radius + 4) ^ 2)) →
      ((updateGame E g).bullets b0).active = true ∧
        (collisionPhase (motionPhase E g)).targets = g.targets ∧
        ((∃ t, (g.targets t).active = true) → (updateGame E g).targets = g.targets) ∧
        (Reachable E g →
          (updateGame E g).targets = g.targets ∧
            ∀ t, ((updateGame E g).targets t).active = (g.targets t).active) ∧
        (updateGame E g).score = g.score) := by
  refine ⟨hitTest_iff, ?_, ?_, ?_⟩
  · intro vx vy a a'
    constructor
    · rw [hitTest_iff]; norm_num
    · rw [← Bool.not_eq_true, hitTest_iff]; norm_num
  · intro b t hr hd
    rw [hitTest_iff, hd, hr]; norm_num
  intro g b0 hplay honly hin
  have hb0 : (g.bullets b0).active = true := (honly b0).2 rfl
  obtain ⟨hx, hy, -, -, hact⟩ := moveBullet_active (g.bullets b0) hb0
  have hb0' : ((motionPhase E g).bullets b0).active = true := by
    rw [motionPhase_bullets]; exact hact.2 hin
  have honly' : ∀ b, ((motionPhase E g).bullets b).active = true → b = b0 := by
    intro b hb
    rw [motionPhase_bullets] at hb
    exact (honly b).1 (moveBullet_active_imp _ hb)
  have hT : (motionPhase E g).targets = g.targets := rfl
  have hS : (motionPhase E g).score = g.score := rfl
  have hhit : ∀ t, hitTest ((motionPhase E g).bullets b0) (g.targets t) = true ↔
      ((g.bullets b0).x + (g.bullets b0).vx - (g.targets t).x) ^ 2 +
        ((g.bullets b0).y + (g.bullets b0).vy - (g.targets t).y) ^ 2
          ≤ ((g.targets t).radius + 4) ^ 2 := by
    intro t
    rw [hitTest_iff, motionPhase_bullets, hx, hy]
  refine ⟨?_, ?_⟩
  · intro t0 ht0 hlow
    have hcol : collisionPhase (motionPhase E g) = applyHit (motionPhase E g) t0 b0 := by
      apply foldl_collideTarget_single (motionPhase E g) b0 t0 honly' hb0' _
        (List.pairwise_lt_finRange _) (List.mem_finRange t0)
      · rw [hT]; exact ht0.1
      · rw [hT]; exact (hhit t0).2 ht0.2
      · intro t hlt hta
        rw [hT] at hta ⊢
        rw [← Bool.not_eq_true, hhit t]
        exact fun hle => hlow t hlt ⟨hta, hle⟩
    refine ⟨?_, ?_, ?_, ?_⟩
    · rw [updateGame_bullets E g hplay, hcol]
      simp [applyHit]
    · rw [hcol]
      simp [applyHit]
    · intro t hne
      rw [hcol]
      simp [applyHit, Function.update_noteq hne, hT]
    · rw [updateGame_score E g hplay, hcol]
      simp [applyHit, hS]
  · intro hmiss
    have hcol : collisionPhase (motionPhase E g) = motionPhase E g := by
      apply foldl_collideTarget_skip
      intro t _ b hta hb
      rw [honly' b hb, hT]
      rw [hT] at hta
      rw [← Bool.not_eq_true, hhit t]
      exact fun hle => hmiss t ⟨hta, hle⟩
    have hkeep : (∃ t, (g.targets t).active = true) → (updateGame E g).targets = g.targets := by
      rintro ⟨t, hta⟩
      rw [updateGame_playing E g hplay, hcol,
        respawnCheck_of_active E _ t (by rw [hT]; exact hta), hT]
    refine ⟨?_, ?_, hkeep, ?_, ?_⟩
    · rw [updateGame_bullets E g hplay, hcol]
      exact hb0'
    · rw [hcol, hT]
    · intro hreach
      have hsome : ∃ t, (g.targets t).active = true :=
        reachable_invariant E (fun g => ∃ t, (g.targets t).active = true)
          (fun seeded _ => ⟨0, by rw [initGame_eq]⟩) (step_some_active E) g hreach
      exact ⟨hkeep hsome, fun t => by rw [hkeep hsome]⟩
    · rw [updateGame_score E g hplay, hcol, hS]

/-- Witness for C3. Hit: in `duelGame` the only active bullet, in slot 2, reaches
`(400, 300)`, within the threshold of targets 0 and 1; target 0 is the one that the collision
phase deactivates, and the score goes from 7 to 8. Miss: in the state reached from `initGame`
by the fire key the only active bullet, in slot 0, ends its motion step inside the rectangle
and within the threshold of no target; after the tick it is still active, the targets are
unchanged and the score is still 0. -/
theorem hit_test_single_bullet_witness :
    ((duelGame.gameOver = false ∧ (∀ b, (duelGame.bullets b).active = true ↔ b = 2) ∧
        (duelGame.bullets 2).x + (duelGame.bullets 2).vx = 400 ∧
        (duelGame.bullets 2).y + (duelGame.bullets 2).vy = 300 ∧
        hitTest (moveBullet (duelGame.bullets 2)) (duelGame.targets 0) = true ∧
        hitTest (moveBullet (duelGame.bullets 2)) (duelGame.targets 1) = true) ∧
      (((updateGame envQ duelGame).bullets 2).active = false ∧
        ((collisionPhase (motionPhase envQ duelGame)).targets 0).active = false ∧
        (∀ t, t ≠ 0 →
          (collisionPhase (motionPhase envQ duelGame)).targets t = duelGame.targets t) ∧
        (updateGame envQ duelGame).score = 7 + 1)) ∧
    ((Reachable envQ (spawnBullet envQ (initGame envQ sampleRand)) ∧
        (spawnBullet envQ (initGame envQ sampleRand)).gameOver = false ∧
        (∀ b, ((spawnBullet envQ (initGame envQ sampleRand)).bullets b).active = true ↔ b = 0) ∧
        (∀ t, hitTest (moveBullet ((spawnBullet envQ (initGame envQ sampleRand)).bullets 0))
          ((spawnBullet envQ (initGame envQ sampleRand)).targets t) = false)) ∧
      (((updateGame envQ (spawnBullet envQ (initGame envQ sampleRand))).bullets 0).active = true ∧
        (updateGame envQ (spawnBullet envQ (initGame envQ sampleRand))).targets =
          (spawnBullet envQ (initGame envQ sampleRand)).targets ∧
        (∀ t, ((updateGame envQ (spawnBullet envQ (initGame envQ sampleRand))).targets t).active =
          ((spawnBullet envQ (initGame envQ sampleRand)).targets t).active) ∧
        (updateGame envQ (spawnBullet envQ (initGame envQ sampleRand))).score = 0)) :=
  have hreach : Reachable envQ (spawnBullet envQ (initGame envQ sampleRand)) :=
    ⟨sampleRand, [Event.keyboard 32],
      fun n => Nat.lt_succ_iff.mp (Nat.mod_lt _ (by decide)), by with_unfolding_all rfl⟩
  have hmiss := ((hit_test_single_bullet envQ).2.2.2
    (spawnBullet envQ (initGame envQ sampleRand)) 0 (by with_unfolding_all decide)
    (by with_unfolding_all decide) (by with_unfolding_all decide)).2
    (by with_unfolding_all decide)
  ⟨⟨by with_unfolding_all decide,
      ((hit_test_single_bullet envQ).2.2.2 duelGame 2 rfl (by with_unfolding_all decide)
        (by with_unfolding_all decide)).1 0 (by with_unfolding_all decide)
        (fun t ht => absurd ht (Fin.not_lt_zero t))⟩,
    ⟨hreach, by with_unfolding_all decide, by with_unfolding_all decide,
      by with_unfolding_all decide⟩,
    hmiss.1, (hmiss.2.2.2.1 hreach).1, (hmiss.2.2.2.1 hreach).2,
    by rw [hmiss.2.2.2.2]; with_unfolding_all decide⟩

/-- Claim C4. In a Playing state whose collision phase leaves no target active, for every
stream of random outputs in `0..RAND_MAX`: after `updateGame` all 5 targets are active, each
with radius 15 and centre in `[180, 620] x [180, 420]`, and the score is the pre-tick score
plus the number of hits of the tick (here every target that was active), which is the score
the collision phase left: the respawn does not touch it. -/
theorem wave_respawn (E : Env K) (g : Game K) (hplay : g.gameOver = false)
    (hrand : ∀ n, g.randState n ≤ E.RAND_MAX)
    (hnone : ∀ t, ((collisionPhase (motionPhase E g)).targets t).active = false) :
    (∀ t, ((updateGame E g).targets t).active = true ∧ ((updateGame E g).targets t).radius = 15 ∧
      (180 : K) ≤ ((updateGame E g).targets t).x ∧ ((updateGame E g).targets t).x ≤ 620 ∧
      (180 : K) ≤ ((updateGame E g).targets t).y ∧ ((updateGame E g).targets t).y ≤ 420) ∧
    activeCount (updateGame E g).targets = 5 ∧
    (updateGame E g).score = g.score + (hitsOfTick E g : Int) ∧
    hitsOfTick E g = activeCount g.targets ∧
    (updateGame E g).score = (collisionPhase (motionPhase E g)).score := by
  have hwave : ∀ t, ((updateGame E g).targets t).active = true ∧
      ((updateGame E g).targets t).radius = 15 ∧
      (180 : K) ≤ ((updateGame E g).targets t).x ∧ ((updateGame E g).targets t).x ≤ 620 ∧
      (180 : K) ≤ ((updateGame E g).targets t).y ∧ ((updateGame E g).targets t).y ≤ 420 := by
    intro t
    rw [updateGame_playing E g hplay, respawnCheck_of_none E _ hnone]
    apply resetTargets_wave
    intro n
    rw [(collisionPhase_frame _).2.2.2.2.2]
    exact hrand n
  refine ⟨hwave, ?_, updateGame_score_hits E g hplay, ?_, updateGame_score E g hplay⟩
  · unfold activeCount
    rw [Finset.filter_true_of_mem (fun t _ => (hwave t).1)]
    rfl
  · unfold hitsOfTick activeCount
    congr 1
    ext t
    simp [hnone t]

/-- Witness for C4: in `lastTargetGame` the bullet destroys the last active target, so the
tick ends with a fresh wave of 5 and the score 7 + 1. -/
theorem wave_respawn_witness :
    (lastTargetGame.gameOver = false ∧ (∀ n, lastTargetGame.randState n ≤ envQ.RAND_MAX) ∧
      ∀ t, ((collisionPhase (motionPhase envQ lastTargetGame)).targets t).active = false) ∧
    (activeCount (updateGame envQ lastTargetGame).targets = 5 ∧
      (∀ t, ((updateGame envQ lastTargetGame).targets t).active = true) ∧
      (updateGame envQ lastTargetGame).score = 8) :=
  have hnone : ∀ t, ((collisionPhase (motionPhase envQ lastTargetGame)).targets t).active
      = false := by with_unfolding_all decide
  have hrand : ∀ n, lastTargetGame.randState n ≤ envQ.RAND_MAX :=
    fun n => Nat.lt_succ_iff.mp (Nat.mod_lt _ (by decide))
  have h := wave_respawn envQ lastTargetGame rfl hrand hnone
  have hcount : activeCount lastTargetGame.targets = 1 := by with_unfolding_all decide
  ⟨⟨rfl, hrand, hnone⟩, h.2.1, fun t => (h.1 t).1, by rw [h.2.2.1, h.2.2.2.1, hcount]; rfl⟩

/-- Claim C5. From every state the restart command (`handleKeyboard` with `n` = 110 or
`N` = 78, which is `restartGame`) gives score 0, 60 seconds, not game over, all 20 bullets
inactive, the player at `(400, 190)` with speed 0 and all 5 targets active with radius 15,
inside `[180, 620] x [180, 420]` when the random outputs are in `0..RAND_MAX`; and two
states with the same pending random outputs get the same score, time, game-over flag,
player, bullet active flags and targets, whether they were Playing or GameOver. -/
theorem restart_resets (E : Env K) (key : Nat) (hkey : key = 110 ∨ key = 78) (g : Game K) :
    handleKeyboard E key g = some (restartGame E g) ∧
    ((restartGame E g).score = 0 ∧ (restartGame E g).timeLeft = 60 ∧
      (restartGame E g).gameOver = false ∧
      (∀ b, ((restartGame E g).bullets b).active = false) ∧
      (restartGame E g).player.x = 400 ∧ (restartGame E g).player.y = 190 ∧
      (restartGame E g).player.speed = 0 ∧
      (∀ t, ((restartGame E g).targets t).active = true ∧
        ((restartGame E g).targets t).radius = 15)) ∧
    ((∀ n, g.randState n ≤ E.RAND_MAX) →
      ∀ t, (180 : K) ≤ ((restartGame E g).targets t).x ∧ ((restartGame E g).targets t).x ≤ 620 ∧
        (180 : K) ≤ ((restartGame E g).targets t).y ∧ ((restartGame E g).targets t).y ≤ 420) ∧
    (∀ g2 : Game K, g2.randState = g.randState →
      (restartGame E g2).score = (restartGame E g).score ∧
        (restartGame E g2).timeLeft = (restartGame E g).timeLeft ∧
        (restartGame E g2).gameOver = (restartGame E g).gameOver ∧
        (restartGame E g2).player = (restartGame E g).player ∧
        (∀ b, ((restartGame E g2).bullets b).active = ((restartGame E g).bullets b).active) ∧
        (restartGame E g2).targets = (restartGame E g).targets) := by
  refine ⟨?_, ?_, ?_, ?_⟩
  · rcases hkey with rfl | rfl <;> simp [handleKeyboard]
  · rw [restartGame_eq]
    exact ⟨rfl, rfl, rfl, fun _ => rfl, rfl, rfl, rfl, fun _ => ⟨rfl, rfl⟩⟩
  · intro hrand t
    rw [restartGame_eq]
    have hx := randFloat_mem E 180 620 (g.randState (2 * t.val)) (by norm_num) (hrand _)
    have hy := randFloat_mem E 180 420 (g.randState (2 * t.val + 1)) (by norm_num) (hrand _)
    exact ⟨hx.1, hx.2, hy.1, hy.2⟩
  · intro g2 h
    rw [restartGame_eq, restartGame_eq, h]
    exact ⟨rfl, rfl, rfl, rfl, fun _ => rfl, rfl⟩

/-- Witness for C5: `n` pressed in the GameOver state `overGame` restarts it, and the
restart of the Playing state `duelGame`, which has the same pending random outputs, gives
the same targets. -/
theorem restart_resets_witness :
    ((110 : Nat) = 110 ∨ (110 : Nat) = 78) ∧ overGame.gameOver = true ∧
      duelGame.gameOver = false ∧
      handleKeyboard envQ 110 overGame = some (restartGame envQ overGame) ∧
      (restartGame envQ overGame).gameOver = false ∧
      (restartGame envQ duelGame).targets = (restartGame envQ overGame).targets :=
  have h := restart_resets envQ 110 (Or.inl rfl) overGame
  ⟨Or.inl rfl, rfl, rfl, h.1, h.2.1.2.2.1, (h.2.2.2 duelGame rfl).2.2.2.2.2⟩

/-- Claim C6. The countdown step of `timerCallback` takes the game from Playing to GameOver
exactly when the clock reaches 0. From the state of `initGame`, after events that contain `n`
countdown seconds and no restart (frame ticks and other keys may come in between, or none
at all), `timeLeft = max (60 - n) 0`, and the game is over if and only if `n >= 60`. A
countdown step, and every event other than a restart, never raises `timeLeft`, never makes a
non-negative `timeLeft` negative, and never clears `gameOver`; in every reachable state
`0 <= timeLeft <= 60`, and the game is over exactly when `timeLeft = 0`. -/
theorem countdown_to_game_over (E : Env K) :
    (∀ (seeded : Nat → Nat) (evs : List Event) (g : Game K),
      (∀ e ∈ evs, isRestart e = false) → run E evs (initGame E seeded) = some g →
      g.timeLeft = max (60 - (countSeconds evs : Int)) 0 ∧
        (g.gameOver = true ↔ 60 ≤ countSeconds evs)) ∧
    (∀ (seeded : Nat → Nat) (n : Nat),
      (timerCallback^[n] (initGame E seeded)).timeLeft = max (60 - (n : Int)) 0 ∧
        ((timerCallback^[n] (initGame E seeded)).gameOver = true ↔ 60 ≤ n)) ∧
    (∀ g : Game K, g.gameOver = false →
      ((timerCallback g).gameOver = true ↔ (0 < g.timeLeft ∧ g.timeLeft - 1 ≤ 0))) ∧
    (∀ (e : Event) (g g' : Game K), isRestart e = false → step E e g = some g' →
      g'.timeLeft ≤ g.timeLeft ∧ (0 ≤ g.timeLeft → 0 ≤ g'.timeLeft) ∧
        (g.gameOver = true → g'.gameOver = true)) ∧
    (∀ g : Game K, Reachable E g →
      (0 ≤ g.timeLeft ∧ g.timeLeft ≤ 60) ∧ (g.gameOver = true ↔ g.timeLeft = 0)) := by
  refine ⟨?_, ?_, ?_, ?_, ?_⟩
  · intro seeded evs g hnr hrun
    have h := run_clock E evs (initGame E seeded) g 0 (by rw [initGame_eq]; norm_num)
      (by rw [initGame_eq]; simp) hnr hrun
    simpa using h
  · intro seeded n
    exact iterate_timerCallback_clock _ (by rw [initGame_eq]) (by rw [initGame_eq]) n
  · intro g hgo
    rw [timerCallback_eq]
    split_ifs with h1 h2
    · simp [h1.2, h2]
    · simp only [hgo, Bool.false_eq_true, false_iff, not_and]
      exact fun _ => h2
    · simp only [hgo, Bool.false_eq_true, false_iff, not_and]
      intro hpos
      exact absurd ⟨hgo, hpos⟩ h1
  · intro e g g' hr h
    rcases step_clock E e g g' hr h with ⟨-, hg'⟩ | ⟨ht, hgo⟩
    · subst hg'
      exact timerCallback_mono g
    · rw [ht, hgo]
      exact ⟨le_refl _, id, id⟩
  · intro g hg
    refine reachable_invariant E
      (fun g => (0 ≤ g.timeLeft ∧ g.timeLeft ≤ 60) ∧ (g.gameOver = true ↔ g.timeLeft = 0))
      ?_ (step_clock_invariant E) g hg
    intro seeded _
    rw [initGame_eq]
    exact ⟨⟨by norm_num, le_refl _⟩, by simp⟩

/-- Witness for C6: two countdown seconds among a frame tick and an accelerate key leave 58
seconds and the game Playing; 60 seconds of countdown end the game at 0. -/
theorem countdown_to_game_over_witness :
    (∃ g, run envQ [Event.frame, Event.second, Event.keyboard 119, Event.second]
        (initGame envQ sampleRand) = some g ∧ g.timeLeft = 58 ∧ ¬ g.gameOver = true) ∧
      (timerCallback^[60] (initGame envQ sampleRand)).timeLeft = 0 ∧
      (timerCallback^[60] (initGame envQ sampleRand)).gameOver = true :=
  have h := countdown_to_game_over envQ
  ⟨⟨_, rfl,
      (h.1 sampleRand [Event.frame, Event.second, Event.keyboard 119, Event.second] _
        (by decide) rfl).1,
      fun hgo => absurd ((h.1 sampleRand
        [Event.frame, Event.second, Event.keyboard 119, Event.second] _
        (by decide) rfl).2.1 hgo) (by decide)⟩,
    (h.2.1 sampleRand 60).1, ((h.2.1 sampleRand 60).2).2 (le_refl _)⟩

/-- Claim C7. In a state with `gameOver = true` the whole state is unchanged by
`updateGame`, by the countdown step of `timerCallback`, by `handleSpecial` with any key, and
by `handleKeyboard` with any key other than ESC (27), `n` (110) and `N` (78), in particular
by accelerate `w`, brake `s`, stop `f`, fire (space, and `spawnBullet` itself) and the
toggles `r` and `h`. -/
theorem game_over_freezes (E : Env K) (g : Game K) (hover : g.gameOver = true) :
    updateGame E g = g ∧ timerCallback g = g ∧
      (∀ key : Int, handleSpecial key g = g) ∧
      (∀ key : Nat, key ≠ 27 → key ≠ 110 → key ≠ 78 → handleKeyboard E key g = some g) ∧
      (handleKeyboard E 119 g = some g ∧ handleKeyboard E 115 g = some g ∧
        handleKeyboard E 102 g = some g ∧ handleKeyboard E 32 g = some g ∧
        handleKeyboard E 114 g = some g ∧ handleKeyboard E 104 g = some g) ∧
      spawnBullet E g = g := by
  have hkey : ∀ key : Nat, key ≠ 27 → key ≠ 110 → key ≠ 78 →
      handleKeyboard E key g = some g := by
    intro key h1 h2 h3
    simp [handleKeyboard, hover, h1, h2, h3]
  refine ⟨by simp [updateGame, hover], by simp [timerCallback, hover],
    fun key => by simp [handleSpecial, hover], hkey, ?_, by simp [spawnBullet, hover]⟩
  exact ⟨hkey 119 (by decide) (by decide) (by decide), hkey 115 (by decide) (by decide) (by decide),
    hkey 102 (by decide) (by decide) (by decide), hkey 32 (by decide) (by decide) (by decide),
    hkey 114 (by decide) (by decide) (by decide), hkey 104 (by decide) (by decide) (by decide)⟩

/-- Witness for C7: the GameOver state `overGame` survives a frame tick, a countdown second,
the left arrow and the fire key unchanged. -/
theorem game_over_freezes_witness :
    overGame.gameOver = true ∧ updateGame envQ overGame = overGame ∧
      timerCallback overGame = overGame ∧ handleSpecial GLUT_KEY_LEFT overGame = overGame ∧
      handleKeyboard envQ 32 overGame = some overGame :=
  have h := game_over_freezes envQ overGame rfl
  ⟨rfl, h.1, h.2.1, h.2.2.1 GLUT_KEY_LEFT, h.2.2.2.2.1.2.2.2.1⟩

/-- Claim C8. In a Playing state with an inactive bullet, `spawnBullet` fills the
lowest-indexed inactive slot `i` and changes nothing else in the state: the new bullet is
active at `(px + 40 sin(h pi/180), py - 40 cos(h pi/180))` with velocity
`(8 sin(h pi/180), -8 cos(h pi/180))`, every other slot, the player, the targets, the score,
the clock and the game-over flag are as before; and when `sin^2 + cos^2 = 1`, the velocity
satisfies `vx^2 + vy^2 = 64` and the spawn point is at distance 40 from the player. -/
theorem spawn_bullet_first_free (E : Env K) (g : Game K) (hplay : g.gameOver = false)
    (hex : ∃ b, (g.bullets b).active = false) :
    ∃ i : Fin MAX_BULLETS,
      ((g.bullets i).active = false ∧ ∀ j, j < i → (g.bullets j).active = true) ∧
      spawnBullet E g =
        { g with
          bullets := Function.update g.bullets i
            { x := g.player.x + 40 * E.sin (g.player.angle * E.M_PI / 180)
              y := g.player.y - 40 * E.cos (g.player.angle * E.M_PI / 180)
              vx := 8 * E.sin (g.player.angle * E.M_PI / 180)
              vy := -8 * E.cos (g.player.angle * E.M_PI / 180)
              active := true } } ∧
      ((spawnBullet E g).bullets i).active = true ∧
      (∀ j, j ≠ i → (spawnBullet E g).bullets j = g.bullets j) ∧
      ((spawnBullet E g).player = g.player ∧ (spawnBullet E g).targets = g.targets ∧
        (spawnBullet E g).score = g.score ∧ (spawnBullet E g).timeLeft = g.timeLeft ∧
        (spawnBullet E g).gameOver = g.gameOver) ∧
      ((∀ a, E.sin a ^ 2 + E.cos a ^ 2 = 1) →
        ((spawnBullet E g).bullets i).vx ^ 2 + ((spawnBullet E g).bullets i).vy ^ 2 = 64 ∧
          (((spawnBullet E g).bullets i).x - g.player.x) ^ 2 +
            (((spawnBullet E g).bullets i).y - g.player.y) ^ 2 = 40 ^ 2) := by
  obtain ⟨i, hmem, hmin⟩ := Finset.exists_minimal
    (Finset.univ.filter fun b => (g.bullets b).active = false)
    (by obtain ⟨b, hb⟩ := hex; exact ⟨b, by simp [hb]⟩)
  simp only [Finset.mem_filter, Finset.mem_univ, true_and] at hmem hmin
  have hlow : ∀ j, j < i → (g.bullets j).active = true := by
    intro j hj
    by_contra hne
    exact hmin j (by simpa using hne) hj
  have heq := spawnBullet_eq E g i hplay hmem hlow
  refine ⟨i, ⟨hmem, hlow⟩, heq, ?_, ?_, ?_, ?_⟩
  · rw [heq]; simp
  · intro j hj
    rw [heq]; simp [Function.update_noteq hj]
  · rw [heq]; exact ⟨rfl, rfl, rfl, rfl, rfl⟩
  · intro htrig
    have h1 := htrig (g.player.angle * E.M_PI / 180)
    rw [heq]
    simp only [Function.update_same]
    constructor
    · linear_combination 64 * h1
    · linear_combination 1600 * h1

/-- Witness for C8: over the reals with the real sine and cosine, a fire request in the state
that `initGame` leaves (every slot free) fills slot 0 and no other, with a bullet of squared
speed 64 spawned at squared distance 1600 from the player. -/
theorem spawn_bullet_first_free_witness :
    ((initGame (⟨Real.pi, Real.sin, Real.cos, 32767⟩ : Env ℝ) sampleRand).gameOver = false ∧
      ((initGame (⟨Real.pi, Real.sin, Real.cos, 32767⟩ : Env ℝ) sampleRand).bullets 0).active
        = false) ∧
    (((spawnBullet (⟨Real.pi, Real.sin, Real.cos, 32767⟩ : Env ℝ)
        (initGame (⟨Real.pi, Real.sin, Real.cos, 32767⟩ : Env ℝ) sampleRand)).bullets
          0).active = true ∧
      ((spawnBullet (⟨Real.pi, Real.sin, Real.cos, 32767⟩ : Env ℝ)
        (initGame (⟨Real.pi, Real.sin, Real.cos, 32767⟩ : Env ℝ) sampleRand)).bullets 1).active
          = false ∧
      ((spawnBullet (⟨Real.pi, Real.sin, Real.cos, 32767⟩ : Env ℝ)
          (initGame (⟨Real.pi, Real.sin, Real.cos, 32767⟩ : Env ℝ) sampleRand)).bullets 0).vx ^ 2 +
        ((spawnBullet (⟨Real.pi, Real.sin, Real.cos, 32767⟩ : Env ℝ)
          (initGame (⟨Real.pi, Real.sin, Real.cos, 32767⟩ : Env ℝ) sampleRand)).bullets 0).vy ^ 2
          = 64 ∧
      (((spawnBullet (⟨Real.pi, Real.sin, Real.cos, 32767⟩ : Env ℝ)
          (initGame (⟨Real.pi, Real.sin, Real.cos, 32767⟩ : Env ℝ) sampleRand)).bullets 0).x
            - 400) ^ 2 +
        (((spawnBullet (⟨Real.pi, Real.sin, Real.cos, 32767⟩ : Env ℝ)
          (initGame (⟨Real.pi, Real.sin, Real.cos, 32767⟩ : Env ℝ) sampleRand)).bullets 0).y
            - 190) ^ 2 = 40 ^ 2) := by
  have hplay : (initGame (⟨Real.pi, Real.sin, Real.cos, 32767⟩ : Env ℝ)
      sampleRand).gameOver = false := by rw [initGame_eq]
  have hfree : ∀ b, ((initGame (⟨Real.pi, Real.sin, Real.cos, 32767⟩ : Env ℝ)
      sampleRand).bullets b).active = false := by
    intro b
    rw [initGame_eq]
  have hpx : (initGame (⟨Real.pi, Real.sin, Real.cos, 32767⟩ : Env ℝ)
      sampleRand).player.x = 400 := by rw [initGame_eq]
  have hpy : (initGame (⟨Real.pi, Real.sin, Real.cos, 32767⟩ : Env ℝ)
      sampleRand).player.y = 190 := by rw [initGame_eq]
  obtain ⟨i, ⟨-, hlow⟩, -, hact, hothers, -, htrig⟩ :=
    spawn_bullet_first_free (⟨Real.pi, Real.sin, Real.cos, 32767⟩ : Env ℝ)
      (initGame (⟨Real.pi, Real.sin, Real.cos, 32767⟩ : Env ℝ) sampleRand) hplay
      ⟨0, hfree 0⟩
  have hi : i = 0 := by
    by_contra hne
    have h0 := hlow 0 (Fin.pos_iff_ne_zero.2 hne)
    rw [hfree 0] at h0
    exact Bool.false_ne_true h0
  subst hi
  have hdist := (htrig Real.sin_sq_add_cos_sq).2
  rw [hpx, hpy] at hdist
  refine ⟨⟨hplay, hfree 0⟩, hact, ?_, (htrig Real.sin_sq_add_cos_sq).1, hdist⟩
  rw [hothers 1 (by decide)]
  exact hfree 1

/-- Claim C9. In a Playing state in which all 20 bullet slots are active, `spawnBullet`
returns the state unchanged: no bullet is overwritten, moved or re-aimed, and the state has
no place where a request could wait for a later tick. -/
theorem spawn_bullet_pool_full (E : Env K) (g : Game K) (hplay : g.gameOver = false)
    (hfull : ∀ b, (g.bullets b).active = true) :
    spawnBullet E g = g ∧ handleKeyboard E 32 g = some g := by
  have hfind := firstInactive_none g.bullets (List.finRange MAX_BULLETS) (fun i _ => hfull i)
  have h : spawnBullet E g = g := by
    simp only [spawnBullet, hplay, Bool.false_eq_true, if_false, hfind]
  exact ⟨h, by simp [handleKeyboard, hplay, h]⟩

/-- Witness for C9: with all 20 slots of `fullPoolGame` in flight a fire request changes
nothing. -/
theorem spawn_bullet_pool_full_witness :
    fullPoolGame.gameOver = false ∧ (∀ b, (fullPoolGame.bullets b).active = true) ∧
      spawnBullet envQ fullPoolGame = fullPoolGame :=
  ⟨rfl, fun _ => rfl, (spawn_bullet_pool_full envQ fullPoolGame rfl (fun _ => rfl)).1⟩

/-- Claim C10. In a Playing state, an active bullet `i` whose position after its motion step
is outside `[140, 660] x [140, 460]` is inactive after the tick, whatever targets are within
its hit threshold, and the tick gives the same targets, the same score and the same other
bullets as it gives from the state in which bullet `i` was already inactive: the bounds check
runs before the collision check. -/
theorem bounds_check_before_collision (E : Env K) (g : Game K) (i : Fin MAX_BULLETS)
    (hplay : g.gameOver = false) (hact : (g.bullets i).active = true)
    (hout : (g.bullets i).x + (g.bullets i).vx < 140 ∨ (g.bullets i).x + (g.bullets i).vx > 660 ∨
      (g.bullets i).y + (g.bullets i).vy < 140 ∨ (g.bullets i).y + (g.bullets i).vy > 460) :
    ((updateGame E g).bullets i).active = false ∧
      (updateGame E g).targets =
        (updateGame E { g with
          bullets := Function.update g.bullets i { g.bullets i with active := false } }).targets ∧
      (updateGame E g).score =
        (updateGame E { g with
          bullets := Function.update g.bullets i { g.bullets i with active := false } }).score ∧
      (∀ j, j ≠ i → (updateGame E g).bullets j =
        (updateGame E { g with
          bullets := Function.update g.bullets i { g.bullets i with active := false } }).bullets
            j) := by
  have hmoved : (moveBullet (g.bullets i)).active = false := by
    rw [← Bool.not_eq_true, (moveBullet_active _ hact).2.2.2.2]
    rintro ⟨h1, h2, h3, h4⟩
    rcases hout with h | h | h | h
    · exact absurd h1 (not_le.2 h)
    · exact absurd h2 (not_le.2 h)
    · exact absurd h3 (not_le.2 h)
    · exact absurd h4 (not_le.2 h)
  have hag : agreeOff i (motionPhase E g)
      (motionPhase E { g with
        bullets := Function.update g.bullets i { g.bullets i with active := false } }) := by
    refine ⟨rfl, rfl, rfl, ?_, ?_, ?_⟩
    · intro b hb
      rw [motionPhase_bullets, motionPhase_bullets]
      simp only [Function.update_noteq hb]
    · rw [motionPhase_bullets]
      exact hmoved
    · rw [motionPhase_bullets]
      simp only [Function.update_same]
      rw [moveBullet_inactive _ rfl]
  have hfin := respawnCheck_agreeOff E i _ _ (collisionPhase_agreeOff i _ _ hag)
  have hp2 := updateGame_playing E
    ({ g with bullets := Function.update g.bullets i { g.bullets i with active := false } } :
      Game K) hplay
  rw [← updateGame_playing E g hplay, ← hp2] at hfin
  exact ⟨hfin.2.2.2.2.1, hfin.1, hfin.2.1, hfin.2.2.2.1⟩

/-- Witness for C10: in `exitGame` bullet 2 ends its motion step at `(400, 135)`, above the
wall `y = 140` and 15 away from the centre of target 0; after the tick the bullet is
inactive, target 0 is still active and the score is still 7. -/
theorem bounds_check_before_collision_witness :
    (exitGame.gameOver = false ∧ (exitGame.bullets 2).active = true ∧
      (exitGame.bullets 2).y + (exitGame.bullets 2).vy < 140 ∧
      (exitGame.targets 0).active = true ∧
      ((exitGame.bullets 2).x + (exitGame.bullets 2).vx - (exitGame.targets 0).x) ^ 2 +
        ((exitGame.bullets 2).y + (exitGame.bullets 2).vy - (exitGame.targets 0).y) ^ 2
          ≤ ((exitGame.targets 0).radius + 4) ^ 2) ∧
    (((updateGame envQ exitGame).bullets 2).active = false ∧
      ((updateGame envQ exitGame).targets 0).active = true ∧
      (updateGame envQ exitGame).score = 7) :=
  have h := bounds_check_before_collision envQ exitGame 2 rfl rfl
    (by with_unfolding_all decide)
  ⟨by with_unfolding_all decide, h.1, by with_unfolding_all decide,
    by with_unfolding_all decide⟩

/-- Claim C11. Collision resolution is first match wins. The collision block examines the
targets in index order; for a target it changes nothing when the target is inactive or no
active bullet passes the hit test, and otherwise it deactivates the target and the
lowest-indexed active bullet that passes the test, adds 1 to the score and touches nothing
else, however many other bullets are within the threshold. In a Playing tick the score rises
by exactly the number of targets destroyed, which is also the number of bullets the collision
block uses up (a bullet scores at most once), so it rises by at most 5 and by at most the
number of active bullets; in no state does `updateGame` lower the score. -/
theorem collision_first_match_wins (E : Env K) :
    (∀ g : Game K, collisionPhase g =
      collideTarget (collideTarget (collideTarget (collideTarget (collideTarget g 0) 1) 2) 3) 4) ∧
    (∀ (g : Game K) (t : Fin NUM_TARGETS),
      ((g.targets t).active = false ∨
        ∀ b, (g.bullets b).active = true → hitTest (g.bullets b) (g.targets t) = false) →
      collideTarget g t = g) ∧
    (∀ (g : Game K) (t : Fin NUM_TARGETS) (b : Fin MAX_BULLETS),
      (g.targets t).active = true → (g.bullets b).active = true →
      hitTest (g.bullets b) (g.targets t) = true →
      (∀ b', b' < b → (g.bullets b').active = true →
        hitTest (g.bullets b') (g.targets t) = false) →
      collideTarget g t =
        { g with
          targets := Function.update g.targets t { g.targets t with active := false }
          bullets := Function.update g.bullets b { g.bullets b with active := false }
          score := g.score + 1 }) ∧
    (∀ g : Game K, g.gameOver = false →
      (updateGame E g).score = g.score + (hitsOfTick E g : Int) ∧
        hitsOfTick E g ≤ min 5 (activeBullets g.bullets) ∧
        (hitsOfTick E g : Int) + (activeBullets (updateGame E g).bullets : Int)
          = (activeBullets (motionPhase E g).bullets : Int)) ∧
    (∀ g : Game K, g.score ≤ (updateGame E g).score) := by
  refine ⟨fun g => rfl, ?_, ?_, ?_, ?_⟩
  · intro g t h
    unfold collideTarget
    rcases h with h | h
    · simp [h]
    · split_ifs
      · rfl
      · exact collideBullets_skip t g _ (fun b _ hb => h b hb)
  · intro g t b ht hb hhit hlow
    unfold collideTarget
    simp only [ht, Bool.not_true, Bool.false_eq_true, if_false]
    exact collideBullets_hit t g b _ (List.pairwise_lt_finRange _) (List.mem_finRange b)
      hb hhit hlow
  · intro g hplay
    obtain ⟨h1, -, h3, h4⟩ := hitsOfTick_le E g
    refine ⟨updateGame_score_hits E g hplay, le_min h1 h3, ?_⟩
    rw [updateGame_bullets E g hplay]
    exact h4
  · intro g
    by_cases hgo : g.gameOver = true
    · simp [updateGame, hgo]
    · rw [updateGame_score_hits E g (by simpa using hgo)]
      exact le_add_of_nonneg_right (Int.natCast_nonneg _)

/-- Witness for C11: in `duelGame` the single active bullet ends within the threshold of the
active targets 0 and 1; the tick destroys target 0 only and adds exactly 1 to the score. -/
theorem collision_first_match_wins_witness :
    (duelGame.gameOver = false ∧ activeBullets duelGame.bullets = 1 ∧
      hitTest (moveBullet (duelGame.bullets 2)) (duelGame.targets 0) = true ∧
      hitTest (moveBullet (duelGame.bullets 2)) (duelGame.targets 1) = true) ∧
    (hitsOfTick envQ duelGame = 1 ∧ (updateGame envQ duelGame).score = 7 + 1 ∧
      ((updateGame envQ duelGame).targets 0).active = false ∧
      ((updateGame envQ duelGame).targets 1).active = true) :=
  have h := (collision_first_match_wins envQ).2.2.2.1 duelGame rfl
  have hcount : activeBullets duelGame.bullets = 1 := by with_unfolding_all decide
  have hle : hitsOfTick envQ duelGame ≤ 1 := by
    have := h.2.1
    rw [hcount] at this
    exact this.trans (min_le_right _ _)
  have hpos : 0 < hitsOfTick envQ duelGame := by with_unfolding_all decide
  have hone : hitsOfTick envQ duelGame = 1 := le_antisymm hle hpos
  ⟨⟨rfl, hcount, by with_unfolding_all decide, by with_unfolding_all decide⟩,
    hone, by rw [h.1, hone]; rfl, by with_unfolding_all decide, by with_unfolding_all decide⟩

/-- Claim C12, evaluated on the code. After `restartGame` (and after the key `n` in the state
that `initGame` leaves) the player has the position `(400, 190)` and the speed 0 of the start
pose of `initGame`, but the heading 0, whereas `initGame` sets the heading 180: the pose
after a restart is not the start pose. -/
theorem restart_heading_differs (E : Env K) (g : Game K) (seeded : Nat → Nat) :
    ((restartGame E g).player.x = (initGame E seeded).player.x ∧
      (restartGame E g).player.y = (initGame E seeded).player.y ∧
      (restartGame E g).player.speed = (initGame E seeded).player.speed) ∧
    ((initGame E seeded).player.angle = 180 ∧ (restartGame E g).player.angle = 0) ∧
    (restartGame E g).player ≠ (initGame E seeded).player ∧
    (∃ g', handleKeyboard E 110 (initGame E seeded) = some g' ∧
      g'.player.angle = 0 ∧ g'.player ≠ (initGame E seeded).player) := by
  have hne : (restartGame E g).player ≠ (initGame E seeded).player := by
    rw [restartGame_eq, initGame_eq]
    intro h
    have h' := congrArg Car.angle h
    simp only at h'
    norm_num at h'
  refine ⟨?_, ?_, hne, ?_⟩
  · rw [restartGame_eq, initGame_eq]
    exact ⟨rfl, rfl, rfl⟩
  · rw [restartGame_eq, initGame_eq]
    exact ⟨rfl, rfl⟩
  · refine ⟨restartGame E (initGame E seeded), ?_, ?_, ?_⟩
    · simp [handleKeyboard]
    · rw [restartGame_eq]
    · rw [restartGame_eq, initGame_eq]
      intro h
      have h' := congrArg Car.angle h
      simp only at h'
      norm_num at h'

/-- Claim C13. In a Playing state with player `(x, y)`, heading `h` and speed `s`, one
`updateGame` sets the position to `(clamp(x + s sin(h pi/180), 140, 660),
clamp(y - s cos(h pi/180), 140, 460))` and keeps the heading. The clamp is hard: a coordinate
below 140 becomes 140, one above the upper wall becomes the wall value, one in between is
kept. At heading 0 (with `sin 0 = 0`, `cos 0 = 1`) and away from the walls, `x` is unchanged
and `y` decreases by `s`. -/
theorem player_step (E : Env K) (g : Game K) (hplay : g.gameOver = false) :
    ((updateGame E g).player.x =
        max 140 (min (g.player.x + g.player.speed * E.sin (g.player.angle * E.M_PI / 180)) 660) ∧
      (updateGame E g).player.y =
        max 140 (min (g.player.y - g.player.speed * E.cos (g.player.angle * E.M_PI / 180)) 460) ∧
      (updateGame E g).player.angle = g.player.angle) ∧
    ((g.player.x + g.player.speed * E.sin (g.player.angle * E.M_PI / 180) < 140 →
        (updateGame E g).player.x = 140) ∧
      (660 < g.player.x + g.player.speed * E.sin (g.player.angle * E.M_PI / 180) →
        (updateGame E g).player.x = 660) ∧
      (140 ≤ g.player.x + g.player.speed * E.sin (g.player.angle * E.M_PI / 180) →
        g.player.x + g.player.speed * E.sin (g.player.angle * E.M_PI / 180) ≤ 660 →
        (updateGame E g).player.x =
          g.player.x + g.player.speed * E.sin (g.player.angle * E.M_PI / 180)) ∧
      (g.player.y - g.player.speed * E.cos (g.player.angle * E.M_PI / 180) < 140 →
        (updateGame E g).player.y = 140) ∧
      (460 < g.player.y - g.player.speed * E.cos (g.player.angle * E.M_PI / 180) →
        (updateGame E g).player.y = 460) ∧
      (140 ≤ g.player.y - g.player.speed * E.cos (g.player.angle * E.M_PI / 180) →
        g.player.y - g.player.speed * E.cos (g.player.angle * E.M_PI / 180) ≤ 460 →
        (updateGame E g).player.y =
          g.player.y - g.player.speed * E.cos (g.player.angle * E.M_PI / 180))) ∧
    (g.player.angle = 0 → E.sin 0 = 0 → E.cos 0 = 1 →
      140 ≤ g.player.x → g.player.x ≤ 660 →
      140 ≤ g.player.y - g.player.speed → g.player.y - g.player.speed ≤ 460 →
      (updateGame E g).player.x = g.player.x ∧
        (updateGame E g).player.y = g.player.y - g.player.speed) := by
  have hy : g.player.y + -g.player.speed * E.cos (g.player.angle * E.M_PI / 180)
      = g.player.y - g.player.speed * E.cos (g.player.angle * E.M_PI / 180) := by ring
  have hX : (updateGame E g).player.x =
      max 140 (min (g.player.x + g.player.speed * E.sin (g.player.angle * E.M_PI / 180)) 660) := by
    rw [updateGame_player E g hplay, movePlayer_x]
    split_ifs with h1 h2 h3
    · exact absurd h2 (by norm_num)
    · rw [min_eq_left (by linarith), max_eq_left (by linarith)]
    · rw [min_eq_right (by linarith), max_eq_right (by norm_num)]
    · rw [min_eq_left (by linarith), max_eq_right (by linarith)]
  have hY : (updateGame E g).player.y =
      max 140 (min (g.player.y - g.player.speed * E.cos (g.player.angle * E.M_PI / 180)) 460) := by
    rw [updateGame_player E g hplay, movePlayer_y, hy]
    split_ifs with h1 h2 h3
    · exact absurd h2 (by norm_num)
    · rw [min_eq_left (by linarith), max_eq_left (by linarith)]
    · rw [min_eq_right (by linarith), max_eq_right (by norm_num)]
    · rw [min_eq_left (by linarith), max_eq_right (by linarith)]
  refine ⟨⟨hX, hY, ?_⟩, ⟨?_, ?_, ?_, ?_, ?_, ?_⟩, ?_⟩
  · rw [updateGame_player E g hplay, movePlayer_angle]
  · intro h
    rw [hX, min_eq_left (by linarith), max_eq_left (by linarith)]
  · intro h
    rw [hX, min_eq_right (by linarith), max_eq_right (by norm_num)]
  · intro h1 h2
    rw [hX, min_eq_left h2, max_eq_right h1]
  · intro h
    rw [hY, min_eq_left (by linarith), max_eq_left (by linarith)]
  · intro h
    rw [hY, min_eq_right (by linarith), max_eq_right (by norm_num)]
  · intro h1 h2
    rw [hY, min_eq_left h2, max_eq_right h1]
  · intro ha hs hc h1 h2 h3 h4
    rw [hX, hY, ha]
    simp only [zero_mul, zero_div, hs, hc, mul_zero, add_zero, mul_one]
    rw [min_eq_left h2, max_eq_right h1, min_eq_left h4, max_eq_right h3]
    exact ⟨rfl, rfl⟩

/-- Witness for C13: the stray player at `(1000, -50)` with speed 9 is set exactly onto the
walls `(660, 140)`; the player of `cruiseGame` at `(400, 300)`, heading 0, speed 3, moves to
`(400, 297)`. -/
theorem player_step_witness :
    (strayGame.gameOver = false ∧ (updateGame envQ strayGame).player.x = 660 ∧
      (updateGame envQ strayGame).player.y = 140) ∧
    (cruiseGame.gameOver = false ∧ cruiseGame.player.angle = 0 ∧ envQ.sin 0 = 0 ∧
      envQ.cos 0 = 1 ∧ (updateGame envQ cruiseGame).player.x = 400 ∧
      (updateGame envQ cruiseGame).player.y = 300 - 3) :=
  ⟨⟨rfl, (player_step envQ strayGame rfl).2.1.2.1 (by with_unfolding_all decide),
      (player_step envQ strayGame rfl).2.1.2.2.2.1 (by with_unfolding_all decide)⟩,
    rfl, rfl, by with_unfolding_all decide, by with_unfolding_all decide,
    ((player_step envQ cruiseGame rfl).2.2 rfl (by with_unfolding_all decide)
      (by with_unfolding_all decide) (by with_unfolding_all decide)
      (by with_unfolding_all decide) (by with_unfolding_all decide)
      (by with_unfolding_all decide)).1,
    ((player_step envQ cruiseGame rfl).2.2 rfl (by with_unfolding_all decide)
      (by with_unfolding_all decide) (by with_unfolding_all decide)
      (by with_unfolding_all decide) (by with_unfolding_all decide)
      (by with_unfolding_all decide)).2⟩

/-- Claim C14. In a Playing tick a bullet that is active at the start is advanced by exactly
its velocity and keeps its velocity; the bounds check of the motion loop deactivates it if
and only if the new position has `x < 140`, `x > 660`, `y < 140` or `y > 460`, so a bullet
exactly on the boundary stays active, and one outside is inactive after the tick. An inactive
bullet is left as it is, and no tick activates a bullet or changes a velocity. A bullet fired
at heading 180 from `(400, 190)` (with `sin(180 pi/180) = 0`, `cos(180 pi/180) = -1`) spawns
at `(400, 230)` with velocity `(0, 8)`; whenever it is still active after `k` frame ticks it
is at `(400, 230 + 8 k)` and `k <= 28`; it is active there for `k <= 28` if the collision
block never deactivated it, and it is inactive after `k` ticks for every `k >= 29`. -/
theorem bullet_flight (E : Env K) :
    (∀ (g : Game K) (b : Fin MAX_BULLETS), g.gameOver = false → (g.bullets b).active = true →
      ((updateGame E g).bullets b).x = (g.bullets b).x + (g.bullets b).vx ∧
        ((updateGame E g).bullets b).y = (g.bullets b).y + (g.bullets b).vy ∧
        (((motionPhase E g).bullets b).active = false ↔
          ((g.bullets b).x + (g.bullets b).vx < 140 ∨ (g.bullets b).x + (g.bullets b).vx > 660 ∨
            (g.bullets b).y + (g.bullets b).vy < 140 ∨
            (g.bullets b).y + (g.bullets b).vy > 460)) ∧
        (((g.bullets b).x + (g.bullets b).vx < 140 ∨ (g.bullets b).x + (g.bullets b).vx > 660 ∨
            (g.bullets b).y + (g.bullets b).vy < 140 ∨
            (g.bullets b).y + (g.bullets b).vy > 460) →
          ((updateGame E g).bullets b).active = false)) ∧
    (∀ (g : Game K) (b : Fin MAX_BULLETS), (g.bullets b).active = false →
      (updateGame E g).bullets b = g.bullets b) ∧
    (∀ (g : Game K) (b : Fin MAX_BULLETS),
      (((updateGame E g).bullets b).active = true → (g.bullets b).active = true) ∧
        ((updateGame E g).bullets b).vx = (g.bullets b).vx ∧
        ((updateGame E g).bullets b).vy = (g.bullets b).vy) ∧
    (∀ (g0 : Game K) (i : Fin MAX_BULLETS), g0.gameOver = false →
      (g0.player.x = 400 ∧ g0.player.y = 190 ∧ g0.player.angle = 180) →
      (E.sin (180 * E.M_PI / 180) = 0 ∧ E.cos (180 * E.M_PI / 180) = -1) →
      ((g0.bullets i).active = false ∧ ∀ j, j < i → (g0.bullets j).active = true) →
      (spawnBullet E g0).bullets i = { x := 400, y := 230, vx := 0, vy := 8, active := true } ∧
        (∀ k : Nat, (((updateGame E)^[k] (spawnBullet E g0)).bullets i).active = true →
          k ≤ 28 ∧ ((updateGame E)^[k] (spawnBullet E g0)).bullets i =
            { x := 400, y := 230 + 8 * (k : K), vx := 0, vy := 8, active := true }) ∧
        (∀ k : Nat, k ≤ 28 →
          (∀ j, j < k →
            ((collisionPhase (motionPhase E ((updateGame E)^[j] (spawnBullet E g0)))).bullets
                i).active =
              ((motionPhase E ((updateGame E)^[j] (spawnBullet E g0))).bullets i).active) →
          ((updateGame E)^[k] (spawnBullet E g0)).bullets i =
            { x := 400, y := 230 + 8 * (k : K), vx := 0, vy := 8, active := true }) ∧
        (∀ k : Nat, 29 ≤ k →
          (((updateGame E)^[k] (spawnBullet E g0)).bullets i).active = false)) := by
  refine ⟨?_, updateGame_bullet_inactive E, ?_, ?_⟩
  · intro g b hplay hb
    obtain ⟨u1, u2, -, -, u5⟩ := updateGame_bullet_active E g b hplay hb
    have hiff : ((motionPhase E g).bullets b).active = false ↔
        ((g.bullets b).x + (g.bullets b).vx < 140 ∨ (g.bullets b).x + (g.bullets b).vx > 660 ∨
          (g.bullets b).y + (g.bullets b).vy < 140 ∨
          (g.bullets b).y + (g.bullets b).vy > 460) := by
      rw [motionPhase_bullets, ← Bool.not_eq_true, (moveBullet_active _ hb).2.2.2.2]
      simp only [not_and_or, not_le, gt_iff_lt]
    refine ⟨u1, u2, hiff, fun hout => ?_⟩
    by_contra hne
    obtain ⟨b1, b2, b3, b4⟩ := u5 (by simpa using hne)
    rcases hout with h | h | h | h
    · exact absurd b1 (not_le.2 h)
    · exact absurd b2 (not_le.2 h)
    · exact absurd b3 (not_le.2 h)
    · exact absurd b4 (not_le.2 h)
  · intro g b
    exact ⟨updateGame_bullet_active_imp E g b, updateGame_bullet_velocity E g b⟩
  · intro g0 i hplay ⟨hx, hy, ha⟩ ⟨hsin, hcos⟩ ⟨hfree, hlow⟩
    have hspawn : (spawnBullet E g0).bullets i =
        { x := 400, y := 230, vx := 0, vy := 8, active := true } := by
      rw [spawnBullet_eq E g0 i hplay hfree hlow]
      simp only [Function.update_same, hx, hy, ha, hsin, hcos]
      norm_num
    have hplay1 : (spawnBullet E g0).gameOver = false := by
      rw [(spawnBullet_frame E g0).2.2.2.2.1]; exact hplay
    have hflight := flight_from_start E (spawnBullet E g0) i hplay1 hspawn
    refine ⟨hspawn, hflight, ?_, ?_⟩
    · intro k
      induction k with
      | zero =>
        intro _ _
        rw [Function.iterate_zero, id_eq, hspawn]
        norm_num
      | succ k ih =>
        intro hk hno
        have hprev := ih (by omega) (fun j hj => hno j (by omega))
        apply (hflight (k + 1) ?_).2
        rw [Function.iterate_succ_apply', updateGame_bullets E _
          (by rw [iterate_updateGame_gameOver]; exact hplay1), hno k (by omega),
          motionPhase_bullets, hprev]
        apply (moveBullet_active _ rfl).2.2.2.2.2
        have hk' : (k : K) ≤ 27 := by
          have : ((k : Nat) : K) ≤ ((27 : Nat) : K) := Nat.cast_le.2 (by omega)
          simpa using this
        have hk0 : (0 : K) ≤ (k : K) := Nat.cast_nonneg k
        refine ⟨by norm_num, by norm_num, ?_, ?_⟩ <;> simp only [] <;> linarith
    · intro k hk
      by_contra hne
      have := (hflight k (by simpa using hne)).1
      omega

/-- Witness for C14: over the reals with the real sine and cosine, in the state that
`initGame` leaves when every random output is 0 (all targets at `(180, 180)`), a fire request
spawns bullet 0 at `(400, 230)` with velocity `(0, 8)`; after one tick the bullet is active at
`(400, 238)`, and after 29 ticks it is inactive. -/
theorem bullet_flight_witness :
    ((initGame (⟨Real.pi, Real.sin, Real.cos, 32767⟩ : Env ℝ) (fun _ => 0)).gameOver = false ∧
      (initGame (⟨Real.pi, Real.sin, Real.cos, 32767⟩ : Env ℝ) (fun _ => 0)).player.x = 400 ∧
      (initGame (⟨Real.pi, Real.sin, Real.cos, 32767⟩ : Env ℝ) (fun _ => 0)).player.y = 190 ∧
      (initGame (⟨Real.pi, Real.sin, Real.cos, 32767⟩ : Env ℝ) (fun _ => 0)).player.angle = 180 ∧
      Real.sin (180 * Real.pi / 180) = 0 ∧ Real.cos (180 * Real.pi / 180) = -1) ∧
    ((spawnBullet (⟨Real.pi, Real.sin, Real.cos, 32767⟩ : Env ℝ)
        (initGame (⟨Real.pi, Real.sin, Real.cos, 32767⟩ : Env ℝ) (fun _ => 0))).bullets 0 =
        { x := 400, y := 230, vx := 0, vy := 8, active := true } ∧
      ((updateGame (⟨Real.pi, Real.sin, Real.cos, 32767⟩ : Env ℝ))^[1]
        (spawnBullet (⟨Real.pi, Real.sin, Real.cos, 32767⟩ : Env ℝ)
          (initGame (⟨Real.pi, Real.sin, Real.cos, 32767⟩ : Env ℝ) (fun _ => 0)))).bullets 0 =
        { x := 400, y := 230 + 8 * ((1 : Nat) : ℝ), vx := 0, vy := 8, active := true } ∧
      (((updateGame (⟨Real.pi, Real.sin, Real.cos, 32767⟩ : Env ℝ))^[29]
        (spawnBullet (⟨Real.pi, Real.sin, Real.cos, 32767⟩ : Env ℝ)
          (initGame (⟨Real.pi, Real.sin, Real.cos, 32767⟩ : Env ℝ) (fun _ => 0)))).bullets
            0).active = false) := by
  have hpi : (180 : ℝ) * Real.pi / 180 = Real.pi := by ring
  have hsin : Real.sin (180 * Real.pi / 180) = 0 := by rw [hpi, Real.sin_pi]
  have hcos : Real.cos (180 * Real.pi / 180) = -1 := by rw [hpi, Real.cos_pi]
  have hplay : (initGame (⟨Real.pi, Real.sin, Real.cos, 32767⟩ : Env ℝ)
      (fun _ => 0)).gameOver = false := by rw [initGame_eq]
  have hx : (initGame (⟨Real.pi, Real.sin, Real.cos, 32767⟩ : Env ℝ)
      (fun _ => 0)).player.x = 400 := by rw [initGame_eq]
  have hy : (initGame (⟨Real.pi, Real.sin, Real.cos, 32767⟩ : Env ℝ)
      (fun _ => 0)).player.y = 190 := by rw [initGame_eq]
  have ha : (initGame (⟨Real.pi, Real.sin, Real.cos, 32767⟩ : Env ℝ)
      (fun _ => 0)).player.angle = 180 := by rw [initGame_eq]
  have hfree : ((initGame (⟨Real.pi, Real.sin, Real.cos, 32767⟩ : Env ℝ)
      (fun _ => 0)).bullets 0).active = false := by rw [initGame_eq]
  have htargets : ∀ t, (initGame (⟨Real.pi, Real.sin, Real.cos, 32767⟩ : Env ℝ)
      (fun _ => 0)).targets t = { x := 180, y := 180, radius := 15, active := true } := by
    intro t
    rw [initGame_eq]
    simp [randFloat]
  obtain ⟨hspawn, -, hk, hlate⟩ :=
    (bullet_flight (⟨Real.pi, Real.sin, Real.cos, 32767⟩ : Env ℝ)).2.2.2
      (initGame (⟨Real.pi, Real.sin, Real.cos, 32767⟩ : Env ℝ) (fun _ => 0)) 0
      hplay ⟨hx, hy, ha⟩ ⟨hsin, hcos⟩ ⟨hfree, fun j hj => absurd hj (Fin.not_lt_zero j)⟩
  refine ⟨⟨hplay, hx, hy, ha, hsin, hcos⟩, hspawn, hk 1 (by norm_num) ?_, hlate 29 (le_refl _)⟩
  intro j hj
  have hj0 : j = 0 := by omega
  subst hj0
  rw [Function.iterate_zero, id_eq]
  rw [collisionPhase_bullet_survives]
  intro t _
  rw [← Bool.not_eq_true, hitTest_iff, motionPhase_bullets, hspawn,
    (motionPhase_frame _ _).1, (spawnBullet_frame _ _).2.1, htargets t,
    (moveBullet_active _ rfl).1, (moveBullet_active _ rfl).2.1]
  norm_num

/-- Claim C15. In a Playing state each movement input changes one field of the player and
nothing else in the state: `w` (119) adds 0.2 to the speed, `s` (115) subtracts 0.2, `f` (102)
sets the speed to 0, the left arrow adds 5 to the heading and the right arrow subtracts 5, for
every prior value, without clamping or wrapping: speed 5 becomes 5.2 and heading 358 becomes
363. -/
theorem movement_inputs (E : Env K) (g : Game K) (hplay : g.gameOver = false) :
    (handleKeyboard E 119 g =
        some { g with player := { g.player with speed := g.player.speed + 0.2 } } ∧
      handleKeyboard E 115 g =
        some { g with player := { g.player with speed := g.player.speed - 0.2 } } ∧
      handleKeyboard E 102 g = some { g with player := { g.player with speed := 0 } } ∧
      handleSpecial GLUT_KEY_LEFT g =
        { g with player := { g.player with angle := g.player.angle + 5 } } ∧
      handleSpecial GLUT_KEY_RIGHT g =
        { g with player := { g.player with angle := g.player.angle - 5 } }) ∧
    (g.player.speed = 5 →
      ∃ g', handleKeyboard E 119 g = some g' ∧ g'.player.speed = 5.2) ∧
    (g.player.angle = 358 → (handleSpecial GLUT_KEY_LEFT g).player.angle = 363) := by
  have hw : handleKeyboard E 119 g =
      some { g with player := { g.player with speed := g.player.speed + 0.2 } } := by
    simp [handleKeyboard, hplay]
  have hl : handleSpecial GLUT_KEY_LEFT g =
      { g with player := { g.player with angle := g.player.angle + 5 } } := by
    simp [handleSpecial, hplay]
  refine ⟨⟨hw, by simp [handleKeyboard, hplay], by simp [handleKeyboard, hplay], hl,
    by simp [handleSpecial, hplay, GLUT_KEY_LEFT, GLUT_KEY_RIGHT]⟩, ?_, ?_⟩
  · intro hs
    refine ⟨_, hw, ?_⟩
    simp only [hs]
    norm_num
  · intro ha
    rw [hl]
    simp only [ha]
    norm_num

/-- Witness for C15: in `edgeGame` (speed 5, heading 358) the key `w` gives speed 5.2 and
the left arrow gives heading 363. -/
theorem movement_inputs_witness :
    edgeGame.gameOver = false ∧ edgeGame.player.speed = 5 ∧ edgeGame.player.angle = 358 ∧
      (∃ g', handleKeyboard envQ 119 edgeGame = some g' ∧ g'.player.speed = 5.2) ∧
      (handleSpecial GLUT_KEY_LEFT edgeGame).player.angle = 363 :=
  ⟨rfl, rfl, rfl, (movement_inputs envQ edgeGame rfl).2.1 rfl,
    (movement_inputs envQ edgeGame rfl).2.2 rfl⟩

/-- Claim C16. In every state reachable from `initGame` by frame ticks, countdown seconds,
keys and restarts at least one target is active. In any Playing state a tick ends in one of
two ways: some target is still active after the collision block and the wave check changes
nothing, or no target is, and the wave check activates all 5 before `updateGame` returns. -/
theorem wave_never_empty (E : Env K) :
    (∀ g : Game K, Reachable E g → ∃ t, (g.targets t).active = true) ∧
    (∀ g : Game K, g.gameOver = false →
      ((∃ t, ((collisionPhase (motionPhase E g)).targets t).active = true) ∧
          (updateGame E g).targets = (collisionPhase (motionPhase E g)).targets) ∨
        ((∀ t, ((collisionPhase (motionPhase E g)).targets t).active = false) ∧
          ∀ t, ((updateGame E g).targets t).active = true)) ∧
    (∀ g : Game K, g.gameOver = false → ∃ t, ((updateGame E g).targets t).active = true) := by
  refine ⟨?_, ?_, ?_⟩
  · intro g hg
    refine reachable_invariant E (fun g => ∃ t, (g.targets t).active = true) ?_
      (step_some_active E) g hg
    intro seeded _
    exact ⟨0, by rw [initGame_eq]⟩
  · intro g hplay
    rcases updateGame_wave E g hplay with ⟨hex, heq⟩ | ⟨hnone, -, hall⟩
    · exact Or.inl ⟨hex, by rw [heq]⟩
    · exact Or.inr ⟨hnone, hall⟩
  · intro g hplay
    rcases updateGame_wave E g hplay with ⟨⟨t, ht⟩, heq⟩ | ⟨-, -, hall⟩
    · exact ⟨t, by rw [heq]; exact ht⟩
    · exact ⟨0, hall 0⟩

/-- Witness for C16: the state reached from `initGame` by a fire key, a frame tick, a
restart and another frame tick has an active target, and the tick from `lastTargetGame`,
whose last target is destroyed, returns with a target active. -/
theorem wave_never_empty_witness :
    (∃ g, run envQ [Event.keyboard 32, Event.frame, Event.keyboard 110, Event.frame]
        (initGame envQ sampleRand) = some g ∧ ∃ t, (g.targets t).active = true) ∧
    (lastTargetGame.gameOver = false ∧
      (∀ t, ((collisionPhase (motionPhase envQ lastTargetGame)).targets t).active = false) ∧
      ∃ t, ((updateGame envQ lastTargetGame).targets t).active = true) :=
  have hrun : run envQ [Event.keyboard 32, Event.frame, Event.keyboard 110, Event.frame]
      (initGame envQ sampleRand) =
      some (updateGame envQ (restartGame envQ (updateGame envQ
        (spawnBullet envQ (initGame envQ sampleRand))))) := by
    with_unfolding_all rfl
  ⟨⟨_, hrun, (wave_never_empty envQ).1 _
      ⟨sampleRand, [Event.keyboard 32, Event.frame, Event.keyboard 110, Event.frame],
        fun n => Nat.lt_succ_iff.mp (Nat.mod_lt _ (by decide)), hrun⟩⟩,
    rfl, by with_unfolding_all decide, (wave_never_empty envQ).2.2 lastTargetGame rfl⟩

/-- Claim C17. `randFloat a b` lies in `[a, b]` for every random output in `0..RAND_MAX` when
`a <= b`; in every state reachable from `initGame` every target has radius 15 and its centre
in `[180, 620] x [180, 420]`; every point within the hit threshold 19 of such a target is
strictly inside `[140, 660] x [140, 460]`. So in a reachable state an active bullet whose
position after the motion step is outside the rectangle is within the hit threshold of no
target, and `updateGame` gives the same state as the tick that checks collisions before
bounds. -/
theorem targets_clear_of_walls (E : Env K) :
    (∀ (a b : K) (r : Nat), a ≤ b → r ≤ E.RAND_MAX →
      a ≤ randFloat E a b r ∧ randFloat E a b r ≤ b) ∧
    (∀ g : Game K, Reachable E g →
      ∀ t, (g.targets t).radius = 15 ∧ (180 : K) ≤ (g.targets t).x ∧ (g.targets t).x ≤ 620 ∧
        (180 : K) ≤ (g.targets t).y ∧ (g.targets t).y ≤ 420) ∧
    (∀ t : Target K,
      (t.radius = 15 ∧ (180 : K) ≤ t.x ∧ t.x ≤ 620 ∧ (180 : K) ≤ t.y ∧ t.y ≤ 420) →
      ∀ px py : K, (px - t.x) ^ 2 + (py - t.y) ^ 2 ≤ (t.radius + 4) ^ 2 →
        140 < px ∧ px < 660 ∧ 140 < py ∧ py < 460) ∧
    (∀ g : Game K, Reachable E g → ∀ (b : Fin MAX_BULLETS) (t : Fin NUM_TARGETS),
      (g.bullets b).active = true →
      ((g.bullets b).x + (g.bullets b).vx < 140 ∨ (g.bullets b).x + (g.bullets b).vx > 660 ∨
        (g.bullets b).y + (g.bullets b).vy < 140 ∨ (g.bullets b).y + (g.bullets b).vy > 460) →
      ¬(((g.bullets b).x + (g.bullets b).vx - (g.targets t).x) ^ 2 +
          ((g.bullets b).y + (g.bullets b).vy - (g.targets t).y) ^ 2
            ≤ ((g.targets t).radius + 4) ^ 2)) ∧
    (∀ g : Game K, Reachable E g → updateGame E g = updateGameCollisionFirst E g) := by
  refine ⟨fun a b r hab hr => randFloat_mem E a b r hab hr,
    fun g hg t => (reachable_inMargin E g hg).2 t,
    fun t ht px py h => inMargin_threshold t ht px py h, ?_,
    fun g hg => updateGame_eq_collisionFirst E g (reachable_inMargin E g hg).2⟩
  intro g hg b t _ hout hle
  obtain ⟨h1, h2, h3, h4⟩ := inMargin_threshold (g.targets t) ((reachable_inMargin E g hg).2 t)
    _ _ hle
  rcases hout with h | h | h | h
  · exact absurd h1 (not_lt.2 h.le)
  · exact absurd h2 (not_lt.2 h.le)
  · exact absurd h3 (not_lt.2 h.le)
  · exact absurd h4 (not_lt.2 h.le)

/-- Witness for C17: the state reached from `initGame` by a fire key and a frame tick has its
targets clear of the walls and gets the same next tick in either order; in the unreachable
state `exitGame`, whose target 0 sits at `(400, 150)`, the two orders differ in the score. -/
theorem targets_clear_of_walls_witness :
    (Reachable envQ (updateGame envQ (spawnBullet envQ (initGame envQ sampleRand))) ∧
      (180 : ℚ) ≤ ((updateGame envQ (spawnBullet envQ (initGame envQ sampleRand))).targets 0).y ∧
      updateGame envQ (updateGame envQ (spawnBullet envQ (initGame envQ sampleRand))) =
        updateGameCollisionFirst envQ
          (updateGame envQ (spawnBullet envQ (initGame envQ sampleRand)))) ∧
    ((updateGame envQ exitGame).score = 7 ∧ (updateGameCollisionFirst envQ exitGame).score = 8) :=
  have hr : Reachable envQ (updateGame envQ (spawnBullet envQ (initGame envQ sampleRand))) :=
    ⟨sampleRand, [Event.keyboard 32, Event.frame],
      fun n => Nat.lt_succ_iff.mp (Nat.mod_lt _ (by decide)), by with_unfolding_all rfl⟩
  ⟨⟨hr, ((targets_clear_of_walls envQ).2.1 _ hr 0).2.2.2.1,
      (targets_clear_of_walls envQ).2.2.2.2 _ hr⟩,
    by with_unfolding_all decide, by with_unfolding_all decide⟩

end Claims


end TankGame
